import Mathlib

/-!
# Kickit: a shallow embedding of the supervision engine

The development follows the four source files of package `kickit`:

* `command.go`  : `KickitCommand`, `KickitResponse`, `StringToAction`
* `kickit.go`   : the supervisor (`Kickit.handleCommand`, `Kickit.removeChild`)
* `process.go`  : the service actor (`start`, `stop`, `handleCommand`, `run`)
* `control.go`  : the wire protocol (`readControlLine`, `readControlCommand`,
                  `sendControlResponse`, `handleConnection`)

Conventions of the embedding.

* A Go `string` and a Go `[]byte` are both sequences of bytes; a byte is a
  natural number (the values below 256 are the real bytes).
* A Go `map[string]T` is a list of entries with pairwise distinct keys.
* Goroutines communicate over unbuffered channels.  Each function is
  embedded as a function from the state it owns to the new state together
  with the list of effects (channel operations, system calls) it performs,
  in program order.  What the outside world answers is read from an
  environment record whose fields take the effects performed so far.
* Calls to `log.Printf` write to the process log only and are left out.
-/

namespace KickitGo

/-! ## Definitions -/

/-- A Go byte. -/
abbrev Byte := Nat

/-- A Go string, also used for byte slices. -/
abbrev GoString := List Byte

/-- The bytes of an ASCII string literal of the source. -/
def lit (s : String) : GoString := s.toList.map Char.toNat

/-- A Go map keyed by strings: its entries, with pairwise distinct keys. -/
structure GoMap (α : Type) where
  entries : List (GoString × α)
deriving DecidableEq, Repr

/-- The result of `make(map[string] T)`. -/
def GoMap.empty {α : Type} : GoMap α := ⟨[]⟩

/-- The keys of a map. -/
def GoMap.keys {α : Type} (m : GoMap α) : List GoString := m.entries.map Prod.fst

/-- The lookup `v, present := m[k]`; `none` when the key is not present. -/
def GoMap.lookup {α : Type} (m : GoMap α) (k : GoString) : Option α :=
  (m.entries.find? (fun e => e.1 == k)).map Prod.snd

/-- The deletion `m[k] = nil, false`. -/
def GoMap.erase {α : Type} (m : GoMap α) (k : GoString) : GoMap α :=
  ⟨m.entries.filter (fun e => e.1 != k)⟩

/-- The assignment `m[k] = v`. -/
def GoMap.insert {α : Type} (m : GoMap α) (k : GoString) (v : α) : GoMap α :=
  ⟨(k, v) :: (m.erase k).entries⟩

/-- The representation invariant of a map: no key occurs twice. -/
def GoMap.WF {α : Type} (m : GoMap α) : Prop := m.keys.Nodup

instance {α : Type} (m : GoMap α) : Decidable m.WF := by
  unfold GoMap.WF
  infer_instance

/-! ### command.go -/

/-- Action number of START. -/
def CMD_UP : Int := 0
/-- Action number of STOP. -/
def CMD_DOWN : Int := 1
/-- Action number of RESTART. -/
def CMD_RESTART : Int := 2

/-- Status number of a successful response. -/
def RES_SUCCESS : Int := 0
/-- Status number of an error response. -/
def RES_ERROR : Int := 1

/-- The struct `KickitCommand`.  The field `Response` records whether a reply
channel was made (`true`) or left nil (`false`); the channel is identified
with the command that carries it. -/
structure KickitCommand where
  Action : Int
  Service : GoString
  Args : GoMap GoString
  Response : Bool
deriving DecidableEq, Repr

/-- The struct `KickitResponse`. -/
structure KickitResponse where
  Status : Int
  Message : GoString
  Data : GoMap GoString
deriving DecidableEq, Repr

/-- Embedding of `NewCommand`. -/
def NewCommand (action : Int) (service : GoString) (needResponse : Bool) : KickitCommand :=
  { Action := action, Service := service, Args := GoMap.empty, Response := needResponse }

/-- Embedding of `NewResponse`. -/
def NewResponse (status : Int) (message : GoString) : KickitResponse :=
  { Status := status, Message := message, Data := GoMap.empty }

/-- Embedding of `StringToAction`.  The library function `strings.ToUpper` is
the parameter `ToUpper`. -/
def StringToAction (ToUpper : GoString → GoString) (actionName : GoString) : Int :=
  let capitalized := ToUpper actionName
  if capitalized = lit "START" then CMD_UP
  else if capitalized = lit "STOP" then CMD_DOWN
  else if capitalized = lit "RESTART" then CMD_RESTART
  else -1

/-- Upper-casing of the ASCII letters, the restriction of `strings.ToUpper`
to ASCII input; used to evaluate the codec on concrete requests. -/
def asciiUpper (s : GoString) : GoString :=
  s.map (fun b => if 97 ≤ b ∧ b ≤ 122 then b - 32 else b)

/-! ### Errors -/

/-- The error values of the package, and the errors handed up by the
runtime (end of stream, failed system calls), which carry their text. -/
inductive Error where
  | ErrNoProcRoot
  | ErrNotRunning
  | ErrCreatingLogDir
  | ErrOpeningLogFile
  | ErrInvalidCommandLine
  | ErrInvalidKeywordLine
  | os (text : GoString)
deriving DecidableEq, Repr

/-- The method `String()` of an error. -/
def Error.String : Error → GoString
  | .ErrNoProcRoot => lit "process: service root does not exist"
  | .ErrNotRunning => lit "process: process not running"
  | .ErrCreatingLogDir => lit "process: error creating log directory"
  | .ErrOpeningLogFile => lit "process: error creating log file"
  | .ErrInvalidCommandLine => lit "control: invalid command line"
  | .ErrInvalidKeywordLine => lit "control: invalid keyword line"
  | .os text => text

/-! ### process.go: the state of a service actor -/

/-- The file name of the entry point of a service. -/
def RUNFILE : GoString := lit "run"
/-- The file name of the log of a service. -/
def LOGFILE : GoString := lit "current"
/-- Pause before a young process is restarted, in nanoseconds. -/
def DEATHPAUSE : Int := 5000000000
/-- Time a process is given to die after SIGTERM, in nanoseconds. -/
def KILLPAUSE : Int := 5000000000
/-- Lifespan below which a dead process counts as young, in nanoseconds. -/
def TOOYOUNGTODIE : Int := 5000000000

/-- The handle `os.Process`. -/
structure Process where
  Pid : Int
deriving DecidableEq, Repr

/-- The message `os.Waitmsg`: the pid and the wait status of a dead process. -/
structure Waitmsg where
  Pid : Int
  WaitStatus : Nat
deriving DecidableEq, Repr

/-- The struct `KickitProcess`.  Its three channels (`waitChan`, `deadChan`,
`CmdChan`) are identified with the actor. -/
structure KickitProcess where
  name : GoString
  runDir : GoString
  runPath : GoString
  wantDown : Bool
  process : Option Process
  startedAt : Int
deriving DecidableEq, Repr

/-! ### kickit.go: the supervisor -/

/-- The struct `Kickit`.  The channels `CtrlChan` and `DeadChan` are
identified with the supervisor. -/
structure Kickit where
  Root : GoString
  CtrlPath : GoString
  children : GoMap KickitProcess
deriving DecidableEq, Repr

/-- Effects of the supervisor loop. -/
inductive SupEvent where
  /-- The statement `go kp.run()` of `NewKickitProcess`. -/
  | spawn (kp : KickitProcess)
  /-- The send `cmd.Response <- res`. -/
  | reply (cmd : KickitCommand) (res : KickitResponse)
  /-- The send `child.CmdChan <- cmd`. -/
  | forward (child : KickitProcess) (cmd : KickitCommand)
deriving DecidableEq, Repr

/-- Embedding of `NewKickitProcess`, without the `go kp.run()` which the
caller records.  The library function `path.Join` is the parameter
`pathJoin`. -/
def NewKickitProcess (pathJoin : GoString → GoString → GoString) (ctxt : Kickit)
    (name : GoString) : KickitProcess :=
  let runDir := pathJoin ctxt.Root name
  let runPath := pathJoin runDir RUNFILE
  { name := name, runDir := runDir, runPath := runPath, wantDown := false,
    process := none, startedAt := 0 }

/-- Embedding of `Kickit.handleCommand`: the new supervisor state and the
effects performed, in order. -/
def Kickit.handleCommand (pathJoin : GoString → GoString → GoString) (ctxt : Kickit)
    (cmd : KickitCommand) : Kickit × List SupEvent :=
  match ctxt.children.lookup cmd.Service with
  | none =>
    if cmd.Action = CMD_UP ∨ cmd.Action = CMD_RESTART then
      let child := NewKickitProcess pathJoin ctxt cmd.Service
      ({ ctxt with children := ctxt.children.insert cmd.Service child },
        [SupEvent.spawn child, SupEvent.forward child cmd])
    else
      let res := NewResponse RES_ERROR (lit "Service does not exist")
      (ctxt, [SupEvent.reply cmd res])
  | some child => (ctxt, [SupEvent.forward child cmd])

/-- Embedding of `Kickit.removeChild`. -/
def Kickit.removeChild (ctxt : Kickit) (name : GoString) : Kickit :=
  { ctxt with children := ctxt.children.erase name }

/-! ### process.go: the service actor -/

/-- The signal number of SIGTERM. -/
def SIGTERM : Nat := 15
/-- The signal number of SIGKILL. -/
def SIGKILL : Nat := 9

/-- An open file, `*os.File`, by its descriptor. -/
structure File where
  fd : Int
deriving DecidableEq, Repr

/-- The file `os.Stderr`. -/
def Stderr : File := ⟨2⟩

/-- The path `os.DevNull`. -/
def DevNull : GoString := lit "/dev/null"

/-- The flags given to `os.Open`. -/
inductive OpenFlag where
  | O_CREAT
  | O_APPEND
  | O_WRONLY
  | O_RDWR
deriving DecidableEq, Repr

/-- Effects of a service actor, in program order. -/
inductive Event where
  /-- The send `kp.deadChan <- kp.name` of `remove`. -/
  | deadSend (name : GoString)
  /-- The call `pathIsDirectory(path)`. -/
  | isDirectory (path : GoString)
  /-- The call `os.MkdirAll(path, perm)`. -/
  | mkdirAll (path : GoString) (perm : Nat)
  /-- The call `os.Open(path, flags, perm)`. -/
  | openFile (path : GoString) (flags : List OpenFlag) (perm : Nat)
  /-- The call `os.StartProcess(name, argv, nil, dir, fds)`. -/
  | startProcess (name : GoString) (argv : List GoString) (dir : GoString) (fds : List File)
  /-- The statement `go kp.wait()` for the process just started. -/
  | goWait (pid : Int)
  /-- The call `time.Nanoseconds()`. -/
  | nanoseconds
  /-- The call `syscall.Kill(pid, sig)`. -/
  | kill (pid : Int) (sig : Nat)
  /-- The call `time.NewTimer(ns)`. -/
  | newTimer (ns : Int)
  /-- The call `timer.Stop()`. -/
  | timerStop
  /-- The receive `<-timer.C`. -/
  | timerFired
  /-- A receive `<-kp.waitChan` that delivered `msg`. -/
  | recvWait (msg : Waitmsg)
  /-- The call `time.Sleep(ns)`. -/
  | sleep (ns : Int)
  /-- The send `cmd.Response <- res`; `res` is `none` for a nil pointer. -/
  | reply (cmd : KickitCommand) (res : Option KickitResponse)
deriving DecidableEq, Repr

/-- What the world outside the actor answers.  Every field that stands for
a system call or a channel takes the effects performed so far, so that the
answer may change from one call to the next.
`pathIsDirectory` is a helper of the package whose source is not at hand;
`pathJoin` is `path.Join` and `WaitmsgString` is the method `String()` of
`os.Waitmsg`.
`waitFirst` is the outcome of the `select` of `stop`: the exit notification
when it is delivered before the timer fires, `none` when the timer fires
first.  `waitRecv` is the receive `<-kp.waitChan` without timeout: `none`
when no notification ever arrives, so that the receive never returns. -/
structure Env where
  pathJoin : GoString → GoString → GoString
  WaitmsgString : Waitmsg → GoString
  pathIsDirectory : List Event → GoString → Bool
  MkdirAll : List Event → GoString → Nat → Option GoString
  Open : List Event → GoString → List OpenFlag → Nat → Except GoString File
  StartProcess : List Event → GoString → List GoString → GoString → List File
    → Except GoString Process
  Nanoseconds : List Event → Int
  waitFirst : List Event → Option Waitmsg
  waitRecv : List Event → Option Waitmsg

/-- The variable `LOGDIR`. -/
def LOGDIR (env : Env) : GoString := env.pathJoin (lit "log") (lit "main")

/-- The text `fmt.Sprintf("%d", n)`. -/
def Sprintf_d (n : Int) : GoString := lit (toString n)

/-- Embedding of `KickitProcess.remove`. -/
def KickitProcess.remove (kp : KickitProcess) (h : List Event) : List Event :=
  h ++ [Event.deadSend kp.name]

/-- Embedding of `KickitProcess.getFds`: the descriptors or the error, and
the effects so far. -/
def KickitProcess.getFds (env : Env) (kp : KickitProcess) (h : List Event) :
    Except Error (List File) × List Event :=
  let logDirAbs := env.pathJoin kp.runDir (LOGDIR env)
  let logPathAbs := env.pathJoin logDirAbs LOGFILE
  match env.MkdirAll h logDirAbs 0o755 with
  | some _ => (.error Error.ErrCreatingLogDir, h ++ [Event.mkdirAll logDirAbs 0o755])
  | none =>
    let h := h ++ [Event.mkdirAll logDirAbs 0o755]
    let flags := [OpenFlag.O_CREAT, OpenFlag.O_APPEND, OpenFlag.O_WRONLY]
    match env.Open h logPathAbs flags 0o755 with
    | .error _ => (.error Error.ErrOpeningLogFile, h ++ [Event.openFile logPathAbs flags 0o755])
    | .ok logFileFd =>
      let h := h ++ [Event.openFile logPathAbs flags 0o755]
      match env.Open h DevNull [OpenFlag.O_RDWR] 0 with
      | .error text => (.error (Error.os text), h ++ [Event.openFile DevNull [OpenFlag.O_RDWR] 0])
      | .ok devNull =>
        (.ok [devNull, logFileFd, Stderr], h ++ [Event.openFile DevNull [OpenFlag.O_RDWR] 0])

/-- Embedding of `KickitProcess.start`: the pair `(pid, err)`, the new actor
state and the effects so far. -/
def KickitProcess.start (env : Env) (kp : KickitProcess) (h : List Event) :
    (Int × Option Error) × KickitProcess × List Event :=
  let kp := { kp with wantDown := false }
  match kp.process with
  | some proc => ((proc.Pid, none), kp, h)
  | none =>
    if !env.pathIsDirectory h kp.runDir then
      ((-1, some Error.ErrNoProcRoot), kp, kp.remove (h ++ [Event.isDirectory kp.runDir]))
    else
      let h := h ++ [Event.isDirectory kp.runDir]
      let args := [kp.runPath]
      match kp.getFds env h with
      | (.error err, h) => ((-1, some err), kp, kp.remove h)
      | (.ok fds, h) =>
        match env.StartProcess h kp.runPath args kp.runDir fds with
        | .error text =>
          ((-1, some (Error.os text)), kp,
            kp.remove (h ++ [Event.startProcess kp.runPath args kp.runDir fds]))
        | .ok proc =>
          let h := h ++ [Event.startProcess kp.runPath args kp.runDir fds]
          let kp := { kp with process := some proc, startedAt := env.Nanoseconds h }
          ((proc.Pid, none), kp, h ++ [Event.nanoseconds, Event.goWait proc.Pid])

/-- Embedding of `KickitProcess.stop`.  The first component is `none` when
the call never returns (it waits for an exit notification that never
arrives), else the pair `(msg, err)`. -/
def KickitProcess.stop (env : Env) (kp : KickitProcess) (h : List Event) :
    Option (Option Waitmsg × Option Error) × KickitProcess × List Event :=
  let kp := { kp with wantDown := true }
  match kp.process with
  | none => (some (none, some Error.ErrNotRunning), kp, h)
  | some proc =>
    let h := h ++ [Event.kill proc.Pid SIGTERM, Event.newTimer KILLPAUSE]
    match env.waitFirst h with
    | some msg =>
      (some (some msg, none), { kp with process := none },
        h ++ [Event.recvWait msg, Event.timerStop])
    | none =>
      let h := h ++ [Event.timerFired, Event.kill proc.Pid SIGKILL]
      match env.waitRecv h with
      | none => (none, kp, h)
      | some msg =>
        (some (some msg, none), { kp with process := none }, h ++ [Event.recvWait msg])

/-- The value in the type `int64` of an integer: arithmetic on `int64`
wraps around. -/
def wrapInt64 (x : Int) : Int := (x + 2 ^ 63) % 2 ^ 64 - 2 ^ 63

/-- The first half of `KickitProcess.uponDeath`, up to its call of `start`:
the handle is cleared and the pause taken when the process died young.  The
lifespan is the difference of two `int64` values, computed in `int64`. -/
def KickitProcess.uponDeathPause (env : Env) (kp : KickitProcess) (h : List Event) :
    KickitProcess × List Event :=
  let kp := { kp with process := none }
  let lifespan := wrapInt64 (env.Nanoseconds h - kp.startedAt)
  let h := h ++ [Event.nanoseconds]
  if lifespan < TOOYOUNGTODIE then (kp, h ++ [Event.sleep DEATHPAUSE]) else (kp, h)

/-- Embedding of `KickitProcess.uponDeath`: the first half, then `start`,
whose result is dropped. -/
def KickitProcess.uponDeath (env : Env) (kp : KickitProcess) (h : List Event) :
    KickitProcess × List Event :=
  match kp.uponDeathPause env h with
  | (kp, h) => (kp.start env h).2

/-- The response built from the result `(pid, err)` of `start`, as in the
cases `CMD_UP` and `CMD_RESTART` of `handleCommand`. -/
def startResponse (r : Int × Option Error) : KickitResponse :=
  match r.2 with
  | some err => NewResponse RES_ERROR err.String
  | none =>
    let res := NewResponse RES_SUCCESS (lit "Service started")
    { res with Data := res.Data.insert (lit "pid") (Sprintf_d r.1) }

/-- The response built from the result `(msg, err)` of `stop`, as in the
case `CMD_DOWN` of `handleCommand`.  With a nil error `stop` returns a
message; a nil message would be a nil dereference, shown as `none`. -/
def stopResponse (env : Env) (r : Option Waitmsg × Option Error) : Option KickitResponse :=
  match r.2 with
  | some err => some (NewResponse RES_ERROR err.String)
  | none =>
    match r.1 with
    | none => none
    | some msg =>
      let res := NewResponse RES_SUCCESS (lit "Service stopped")
      let res := { res with Data := res.Data.insert (lit "pid") (Sprintf_d msg.Pid) }
      some { res with Data := res.Data.insert (lit "msg") (env.WaitmsgString msg) }

/-- Embedding of `KickitProcess.handleCommand`.  The first component is
`none` when the call never returns, else the pointer `res` that was sent on
`cmd.Response` (`some none` is the nil pointer, sent for an action outside
the three cases of the switch). -/
def KickitProcess.handleCommand (env : Env) (kp : KickitProcess) (cmd : KickitCommand)
    (h : List Event) : Option (Option KickitResponse) × KickitProcess × List Event :=
  if cmd.Action = CMD_UP then
    match kp.start env h with
    | (r, kp, h) =>
      let res := some (startResponse r)
      (some res, kp, h ++ [Event.reply cmd res])
  else if cmd.Action = CMD_DOWN then
    match kp.stop env h with
    | (none, kp, h) => (none, kp, h)
    | (some r, kp, h) =>
      let res := stopResponse env r
      (some res, kp, h ++ [Event.reply cmd res])
  else if cmd.Action = CMD_RESTART then
    match kp.stop env h with
    | (none, kp, h) => (none, kp, h)
    | (some _, kp, h) =>
      match kp.start env h with
      | (r, kp, h) =>
        let res := some (startResponse r)
        (some res, kp, h ++ [Event.reply cmd res])
  else
    (some none, kp, h ++ [Event.reply cmd none])

/-- What the `select` of `run` delivers: a command from `CmdChan` or an exit
notification from `waitChan`. -/
inductive ActorInput where
  | command (cmd : KickitCommand)
  | exited (msg : Waitmsg)
deriving DecidableEq, Repr

/-- How far the loop of `run` got on a finite sequence of inputs. -/
inductive LoopEnd where
  /-- The loop was left by `break`, after `kp.remove()`. -/
  | left
  /-- The loop is at its `select`, and no input is left. -/
  | selecting
  /-- The loop is inside a call that never returns. -/
  | stuck
deriving DecidableEq, Repr

/-- Embedding of `KickitProcess.run` on the inputs its `select` delivers, in
order. -/
def KickitProcess.run (env : Env) :
    List ActorInput → KickitProcess → List Event → LoopEnd × KickitProcess × List Event
  | inputs, kp, h =>
    if kp.wantDown then (LoopEnd.left, kp, kp.remove h)
    else
      match inputs with
      | [] => (LoopEnd.selecting, kp, h)
      | ActorInput.command cmd :: rest =>
        match kp.handleCommand env cmd h with
        | (none, kp, h) => (LoopEnd.stuck, kp, h)
        | (some _, kp, h) => KickitProcess.run env rest kp h
      | ActorInput.exited msg :: rest =>
        match kp.uponDeath env (h ++ [Event.recvWait msg]) with
        | (kp, h) => KickitProcess.run env rest kp h

/-- The result `(pid, err)` of the call of `start` that the loop makes while
it handles one input, `none` when it makes no such call: a Down command, an
action outside the switch, or a Restart whose `stop` never returns. -/
def KickitProcess.startCall (env : Env) (kp : KickitProcess) (h : List Event) :
    ActorInput → Option (Int × Option Error)
  | ActorInput.command cmd =>
    if cmd.Action = CMD_UP then some (kp.start env h).1
    else if cmd.Action = CMD_RESTART then
      match kp.stop env h with
      | (none, _, _) => none
      | (some _, kp, h) => some (kp.start env h).1
    else none
  | ActorInput.exited msg =>
    match kp.uponDeathPause env (h ++ [Event.recvWait msg]) with
    | (kp, h) => some (kp.start env h).1

/-- Whether a call of `start` was made and returned an error. -/
def startFailed : Option (Int × Option Error) → Bool
  | some (_, some _) => true
  | _ => false

/-- The number of removal notifications for `name` among the effects. -/
def removals (name : GoString) (h : List Event) : Nat :=
  h.count (Event.deadSend name)

/-- An environment in which every call succeeds: the run directory exists,
the descriptors open, the process starts with pid 4321, and the process
dies as soon as it is signalled. -/
def envUp : Env where
  pathJoin := fun a b => a ++ lit "/" ++ b
  WaitmsgString := fun m => lit "exit status " ++ Sprintf_d m.WaitStatus
  pathIsDirectory := fun _ _ => true
  MkdirAll := fun _ _ _ => none
  Open := fun _ path _ _ => .ok ⟨if path = DevNull then 3 else 4⟩
  StartProcess := fun _ _ _ _ _ => .ok ⟨4321⟩
  Nanoseconds := fun h => 1000 * h.length
  waitFirst := fun _ => some ⟨4321, 0⟩
  waitRecv := fun _ => some ⟨4321, 0⟩

/-- An environment in which the run directory exists but the log directory
cannot be made, and a signalled process outlives the timer and dies of
SIGKILL. -/
def envNoLog : Env where
  pathJoin := fun a b => a ++ lit "/" ++ b
  WaitmsgString := fun m => lit "signal " ++ Sprintf_d m.WaitStatus
  pathIsDirectory := fun _ _ => true
  MkdirAll := fun _ _ _ => some (lit "permission denied")
  Open := fun _ path _ _ => .ok ⟨if path = DevNull then 3 else 4⟩
  StartProcess := fun _ _ _ _ _ => .ok ⟨4321⟩
  Nanoseconds := fun h => 1000 * h.length
  waitFirst := fun _ => none
  waitRecv := fun _ => some ⟨4321, 9⟩

/-- The actor of service `web` under `/srv`, tracking no process. -/
def webDown : KickitProcess :=
  { name := lit "web", runDir := lit "/srv/web", runPath := lit "/srv/web/run",
    wantDown := false, process := none, startedAt := 0 }

/-- The actor of service `web` under `/srv`, tracking process 4321. -/
def webUp : KickitProcess :=
  { webDown with process := some ⟨4321⟩, startedAt := 7000 }

/-- The time for which the calls of `time.Sleep` among the effects pause the
actor; the other effects take time too, so this is the least time that goes
by while the effects are performed. -/
def pausedFor : List Event → Int
  | [] => 0
  | Event.sleep ns :: rest => ns + pausedFor rest
  | _ :: rest => pausedFor rest

/-- An environment like `envUp` whose clock shows nine seconds and more. -/
def envLate : Env :=
  { envUp with Nanoseconds := fun h => 9000000000 + 1000 * h.length }

/-- An environment like `envUp` whose clock shows a time of the year 2026. -/
def envNow : Env :=
  { envUp with Nanoseconds := fun _ => 1793788962015664233 }

/-- The actor of service `web` whose start time is the least `int64`. -/
def webOldest : KickitProcess :=
  { webUp with startedAt := -9223372036854775808 }

/-- The actor of service `web` whose process 4321 was started at time 500. -/
def webYoung : KickitProcess :=
  { webUp with startedAt := 500 }

/-! ### control.go: the wire protocol -/

/-- The line terminator `"\r\n"`. -/
def CRLF : GoString := [13, 10]

/-- Parser state: the command line is expected. -/
def COMMAND : Nat := 0
/-- Parser state: keyword lines are expected. -/
def KWARG : Nat := 1

/-- A `bufio.Reader` over a connection: the bytes that can still be read,
and the error the connection gives once they are used up (`os.EOF` when the
peer closed the stream). -/
structure Reader where
  data : List Byte
  err : Error
deriving DecidableEq, Repr

/-- The bytes up to and including the first `delim`, and what follows;
`none` when `delim` does not occur. -/
def splitAfter (delim : Byte) : List Byte → Option (List Byte × List Byte)
  | [] => none
  | c :: rest =>
    if c = delim then some ([c], rest)
    else
      match splitAfter delim rest with
      | none => none
      | some (line, rest) => some (c :: line, rest)

/-- The method `ReadBytes` of `bufio.Reader`: the bytes up to and including
the first `delim`; when the stream fails before a `delim`, the bytes read
before the error and the error. -/
def Reader.ReadBytes (b : Reader) (delim : Byte) : (List Byte × Option Error) × Reader :=
  match splitAfter delim b.data with
  | some (line, rest) => ((line, none), { b with data := rest })
  | none => ((b.data, some b.err), { b with data := [] })

/-- The library function `bytes.Index`: the index of the first occurrence of
`sep` in `s`, or -1. -/
def bytesIndex : List Byte → List Byte → Int
  | [], sep => if sep = [] then 0 else -1
  | c :: s, sep =>
    if sep.isPrefixOf (c :: s) then 0
    else if bytesIndex s sep < 0 then -1 else bytesIndex s sep + 1

/-- Embedding of `readControlLine`. -/
def readControlLine (b : Reader) : Except Error (List Byte) × Reader :=
  match b.ReadBytes 10 with
  | ((_, some err), b) => (.error err, b)
  | ((line, none), b) =>
    if line.length > 1 ∧ line.getD (line.length - 2) 0 = 13 then
      (.ok (line.take (line.length - 2)), b)
    else
      (.ok (line.take (line.length - 1)), b)

/-- The loop of `readControlCommand`, with a bound on the number of lines it
may read.  The result is `none` when the bound is used up, or when the
keyword case dereferences a nil `cmd`; `readControlCommand_returns` shows
that neither happens.  Else the result is the pair `(cmd, err)`, where
`cmd` is `none` for the nil pointer, and the reader after the call. -/
def readControlCommandLoop (ToUpper : GoString → GoString) :
    Nat → Nat → Option KickitCommand → Reader
      → Option (Except Error (Option KickitCommand) × Reader)
  | 0, _, _, _ => none
  | fuel + 1, state, cmd, b =>
    match readControlLine b with
    | (.error err, b) => some (.error err, b)
    | (.ok line, b) =>
      if line.length = 0 then
        if state = COMMAND then readControlCommandLoop ToUpper fuel state cmd b
        else some (.ok cmd, b)
      else if state = COMMAND then
        let sidx := bytesIndex line [32]
        if sidx < 1 then some (.error Error.ErrInvalidCommandLine, b)
        else
          let cmdAction := StringToAction ToUpper (line.take sidx.toNat)
          let cmdService := line.drop (sidx.toNat + 1)
          readControlCommandLoop ToUpper fuel KWARG
            (some (NewCommand cmdAction cmdService true)) b
      else if state = KWARG then
        let sidx := bytesIndex line [61]
        if sidx < 1 then some (.error Error.ErrInvalidKeywordLine, b)
        else
          let key := line.take sidx.toNat
          let val := line.drop (sidx.toNat + 1)
          match cmd with
          | none => none
          | some c =>
            readControlCommandLoop ToUpper fuel KWARG
              (some { c with Args := c.Args.insert key val }) b
      else readControlCommandLoop ToUpper fuel state cmd b

/-- Embedding of `readControlCommand`.  Every turn of the loop that does not
return reads a line of at least one byte, so one turn more than there are
bytes is enough. -/
def readControlCommand (ToUpper : GoString → GoString) (b : Reader) :
    Option (Except Error (Option KickitCommand) × Reader) :=
  readControlCommandLoop ToUpper (b.data.length + 1) COMMAND none b

/-- The bytes that `sendControlResponse` puts in its buffer.  The order in
which `range` visits a map is not fixed by the language; `range` gives the
order chosen. -/
def responseBytes (range : List (GoString × GoString) → List (GoString × GoString))
    (res : KickitResponse) : List Byte :=
  let buf : List Byte := []
  let buf :=
    if res.Status = RES_ERROR then buf ++ lit "ERROR"
    else if res.Status = RES_SUCCESS then buf ++ lit "SUCCESS"
    else buf
  let buf := buf ++ lit " "
  let buf := buf ++ res.Message
  let buf := buf ++ CRLF
  let buf := (range res.Data.entries).foldl
    (fun buf kv => buf ++ kv.1 ++ lit "=" ++ kv.2 ++ CRLF) buf
  buf ++ CRLF

/-- Effects of a connection handler. -/
inductive ConnEvent where
  /-- The send `c.ctrl <- cmd`. -/
  | route (cmd : KickitCommand)
  /-- The receive `res = <-cmd.Response`; `res` is `none` for a nil pointer. -/
  | answered (cmd : KickitCommand) (res : Option KickitResponse)
  /-- The call `conn.Write(bytes)`. -/
  | write (bytes : List Byte)
  /-- The deferred call `conn.Close()`. -/
  | close
deriving DecidableEq, Repr

/-- What the world outside a connection handler answers, given the effects
performed so far.  `answer` is the receive `<-cmd.Response`: `none` when no
response ever arrives.  `writeError` is the error of `conn.Write`.  `range`
is the order in which a map is visited: each entry once. -/
structure ConnEnv where
  answer : List ConnEvent → KickitCommand → Option (Option KickitResponse)
  writeError : List ConnEvent → List Byte → Option Error
  range : List (GoString × GoString) → List (GoString × GoString)
  range_perm : ∀ entries, (range entries).Perm entries

/-- Embedding of `sendControlResponse`: the error of the write and the
effects so far. -/
def sendControlResponse (env : ConnEnv) (res : KickitResponse) (h : List ConnEvent) :
    Option Error × List ConnEvent :=
  let buf := responseBytes env.range res
  (env.writeError h buf, h ++ [ConnEvent.write buf])

/-- How a connection handler ends. -/
inductive ConnEnd where
  /-- The handler returned; the connection is closed. -/
  | closed
  /-- The handler waits for a response that never arrives. -/
  | waiting
  /-- The handler dereferenced a nil pointer. -/
  | crashed
deriving DecidableEq, Repr

/-- The loop of `handleConnection`, with a bound on the number of requests
it may read; the result is `none` when the bound is used up. -/
def handleConnectionLoop (ToUpper : GoString → GoString) (env : ConnEnv) :
    Nat → Reader → List ConnEvent → Option (ConnEnd × List ConnEvent)
  | 0, _, _ => none
  | fuel + 1, b, h =>
    match readControlCommand ToUpper b with
    | none => none
    | some (.error _, _) => some (ConnEnd.closed, h ++ [ConnEvent.close])
    | some (.ok none, _) => some (ConnEnd.crashed, h ++ [ConnEvent.close])
    | some (.ok (some cmd), b) =>
      if cmd.Action < 0 then
        let res := NewResponse RES_ERROR (lit "Invalid Action")
        match sendControlResponse env res h with
        | (some _, h) => some (ConnEnd.closed, h ++ [ConnEvent.close])
        | (none, h) => handleConnectionLoop ToUpper env fuel b h
      else
        let h := h ++ [ConnEvent.route cmd]
        match env.answer h cmd with
        | none => some (ConnEnd.waiting, h)
        | some none => some (ConnEnd.crashed, h ++ [ConnEvent.answered cmd none, ConnEvent.close])
        | some (some res) =>
          match sendControlResponse env res (h ++ [ConnEvent.answered cmd (some res)]) with
          | (some _, h) => some (ConnEnd.closed, h ++ [ConnEvent.close])
          | (none, h) => handleConnectionLoop ToUpper env fuel b h

/-- Embedding of `KickitController.handleConnection` on the stream `b`.  Every
request that is answered takes at least one byte of the stream, so one turn
more than there are bytes is enough. -/
def handleConnection (ToUpper : GoString → GoString) (env : ConnEnv) (b : Reader) :
    Option (ConnEnd × List ConnEvent) :=
  handleConnectionLoop ToUpper env (b.data.length + 1) b []

/-! ### The request grammar -/

/-- A line terminator: CRLF, or a bare LF. -/
def terminator (crlf : Bool) : List Byte := if crlf then CRLF else [10]

/-- The text of a line that ends with the given terminator: it holds no LF,
and before a bare LF it does not end in CR (the CR would be read as part of
a CRLF). -/
def lineBody (crlf : Bool) (text : List Byte) : Prop :=
  10 ∉ text ∧ (crlf = false → text.getLast? ≠ some 13)

instance (crlf : Bool) (text : List Byte) : Decidable (lineBody crlf text) := by
  unfold lineBody
  infer_instance

/-- A run of blank lines, one for each terminator. -/
def blankLines : List Bool → List Byte
  | [] => []
  | crlf :: rest => terminator crlf ++ blankLines rest

/-- A run of keyword lines `K=V`, each given as key, value and terminator. -/
def kwLines : List (GoString × GoString × Bool) → List Byte
  | [] => []
  | (k, v, crlf) :: rest => k ++ [61] ++ v ++ terminator crlf ++ kwLines rest

/-- The start of a request: blank lines, the command line `A S` and keyword
lines. -/
def requestHead (blanks : List Bool) (A S : GoString) (crlf : Bool)
    (kws : List (GoString × GoString × Bool)) : List Byte :=
  blankLines blanks ++ (A ++ [32] ++ S) ++ terminator crlf ++ kwLines kws

/-- The keyword-argument map that the keyword lines build, line after line,
from the empty map of `NewCommand`. -/
def argsOf (kws : List (GoString × GoString × Bool)) : GoMap GoString :=
  kws.foldl (fun m kw => m.insert kw.1 kw.2.1) GoMap.empty

/-- A connection environment in which every routed command is answered with
Success "ok", every write succeeds, and a map is visited in the order of its
entries. -/
def connOk : ConnEnv where
  answer := fun _ _ => some (some (NewResponse RES_SUCCESS (lit "ok")))
  writeError := fun _ _ => none
  range := fun entries => entries
  range_perm := fun entries => List.Perm.refl entries

/-! ### The response grammar of the spec

The repository holds no reader of responses.  The definitions below put the
response grammar of the spec into a decoder: lines end with CRLF; the first
line is `STATUS MESSAGE`, split at the first space; the lines after it are
`KEY=VALUE`, split at the first `=`; a blank line ends the response. -/

/-- The bytes before the first CRLF, and the bytes after it; `none` when
there is no CRLF. -/
def specLine : List Byte → Option (List Byte × List Byte)
  | [] => none
  | c :: rest =>
    if c = 13 ∧ rest.head? = some 10 then some ([], rest.tail)
    else
      match specLine rest with
      | none => none
      | some (line, rest) => some (c :: line, rest)

/-- The bytes before the first `sep`, and the bytes after it; `none` when
there is no `sep`. -/
def specSplit (sep : Byte) : List Byte → Option (List Byte × List Byte)
  | [] => none
  | c :: rest =>
    if c = sep then some ([], rest)
    else
      match specSplit sep rest with
      | none => none
      | some (a, b) => some (c :: a, b)

/-- The status that a status word stands for. -/
def specStatus (word : List Byte) : Option Int :=
  if word = lit "SUCCESS" then some RES_SUCCESS
  else if word = lit "ERROR" then some RES_ERROR
  else none

/-- The data map spelled by `KEY=VALUE` lines up to a blank line, read in at
most `fuel` lines. -/
def specData : Nat → List Byte → GoMap GoString → Option (GoMap GoString)
  | 0, _, _ => none
  | fuel + 1, bytes, m =>
    match specLine bytes with
    | none => none
    | some (line, rest) =>
      if line = [] then some m
      else
        match specSplit 61 line with
        | none => none
        | some (k, v) => specData fuel rest (m.insert k v)

/-- The response spelled by the bytes, by the response grammar of the
spec. -/
def specDecodeResponse (bytes : List Byte) : Option KickitResponse :=
  match specLine bytes with
  | none => none
  | some (line, rest) =>
    match specSplit 32 line with
    | none => none
    | some (word, message) =>
      match specStatus word with
      | none => none
      | some status =>
        match specData (rest.length + 1) rest GoMap.empty with
        | none => none
        | some data => some ⟨status, message, data⟩

/-- Whether the bytes hold a CR followed at once by a LF. -/
def hasCRLF : List Byte → Bool
  | [] => false
  | c :: rest => (c = 13 ∧ rest.head? = some 10) || hasCRLF rest

/-- The lines `KEY=VALUE` that `sendControlResponse` writes for the entries
it visits. -/
def dataLines : List (GoString × GoString) → List Byte
  | [] => []
  | kv :: rest => kv.1 ++ lit "=" ++ kv.2 ++ CRLF ++ dataLines rest

/-! ## Theorems -/

/-- A key that is not among the keys of a map is not found by lookup. -/
theorem GoMap.lookup_eq_none_of_not_mem {α : Type} (m : GoMap α) (k : GoString)
    (h : k ∉ m.keys) : m.lookup k = none := by
  unfold GoMap.lookup
  rw [Option.map_eq_none', List.find?_eq_none]
  intro e he hk
  apply h
  have : e.1 = k := by simpa using hk
  rw [← this]
  exact List.mem_map_of_mem Prod.fst he

/-! ### Maps -/

/-- Lookup after an assignment. -/
theorem GoMap.lookup_insert {α : Type} (m : GoMap α) (k k2 : GoString) (v : α) :
    (m.insert k v).lookup k2 = if k2 = k then some v else m.lookup k2 := by
  unfold GoMap.lookup GoMap.insert GoMap.erase
  by_cases hk : k2 = k
  · subst hk
    simp [List.find?_cons]
  · have hk2 : (k == k2) = false := by simpa using fun h : k = k2 => hk h.symm
    have hfun : (fun a : GoString × α => decide ((a.1 != k) = true ∧ a.1 = k2))
        = (fun a : GoString × α => a.1 == k2) := by
      funext a
      by_cases ha : a.1 = k2
      · simp [ha, hk]
      · simp [ha]
    simp only [List.find?_cons, hk2, List.find?_filter, if_neg hk]
    first
      | rw [hfun]
      | (simp only [beq_iff_eq] at hfun ⊢; rw [hfun])

/-- An assignment keeps the keys of a map distinct. -/
theorem GoMap.insert_WF {α : Type} (m : GoMap α) (k : GoString) (v : α) (hm : m.WF) :
    (m.insert k v).WF := by
  unfold GoMap.WF GoMap.keys GoMap.insert GoMap.erase at *
  simp only [List.map_cons, List.nodup_cons]
  refine ⟨?_, ?_⟩
  · intro hmem
    rw [List.mem_map] at hmem
    obtain ⟨e, he, hek⟩ := hmem
    rw [List.mem_filter] at he
    simp [hek] at he
  · exact List.Nodup.sublist (List.Sublist.map _ (List.filter_sublist _)) hm

/-- The map built by successive assignments: the last assignment to a key
is the one that is found. -/
theorem GoMap.lookup_foldl_insert {α β : Type} (key : β → GoString) (val : β → α)
    (l : List β) (m : GoMap α) (k : GoString) :
    (l.foldl (fun m x => m.insert (key x) (val x)) m).lookup k
      = ((l.reverse.find? (fun x => key x == k)).map val).or (m.lookup k) := by
  induction l generalizing m with
  | nil => simp
  | cons x l ih =>
    simp only [List.foldl_cons, List.reverse_cons, List.find?_append, Option.map_or',
      List.find?_singleton]
    rw [ih, GoMap.lookup_insert]
    cases hfind : (l.reverse.find? (fun x => key x == k)) with
    | some y => simp
    | none =>
      by_cases hk : k = key x
      · simp [hk]
      · have hk2 : ¬ (key x = k) := fun h => hk h.symm
        simp [hk, hk2]

/-- Successive assignments keep the keys of a map distinct. -/
theorem GoMap.foldl_insert_WF {α β : Type} (key : β → GoString) (val : β → α)
    (l : List β) (m : GoMap α) (hm : m.WF) :
    (l.foldl (fun m x => m.insert (key x) (val x)) m).WF := by
  induction l generalizing m with
  | nil => exact hm
  | cons x l ih => exact ih _ (GoMap.insert_WF m (key x) (val x) hm)

/-- The map built from keyword lines depends on their keys and values only. -/
theorem argsOf_congr (kws kws2 : List (GoString × GoString × Bool))
    (h : kws2.map (fun kw => (kw.1, kw.2.1)) = kws.map (fun kw => (kw.1, kw.2.1))) :
    argsOf kws2 = argsOf kws := by
  have hgen : ∀ (l : List (GoString × GoString × Bool)) (m : GoMap GoString),
      l.foldl (fun m kw => m.insert kw.1 kw.2.1) m
        = (l.map (fun kw => (kw.1, kw.2.1))).foldl (fun m kv => m.insert kv.1 kv.2) m := by
    intro l
    induction l with
    | nil => intro m; rfl
    | cons kw l ih => intro m; simp [ih]
  unfold argsOf
  rw [hgen kws2, hgen kws, h]

/-- C1: for every service table and every command whose service name is not a
key of the table and whose action is neither Up nor Restart, the supervisor
sends exactly one response on the reply slot of the command, with status Error
and message "Service does not exist", leaves the table unchanged (the name is
still not a key) and forwards the command to no actor. -/
theorem handleCommand_unknown_service (pathJoin : GoString → GoString → GoString)
    (ctxt : Kickit) (cmd : KickitCommand)
    (hkey : cmd.Service ∉ ctxt.children.keys)
    (hup : cmd.Action ≠ CMD_UP) (hrestart : cmd.Action ≠ CMD_RESTART) :
    (Kickit.handleCommand pathJoin ctxt cmd).2
        = [SupEvent.reply cmd
            { Status := RES_ERROR, Message := lit "Service does not exist",
              Data := GoMap.empty }]
      ∧ (Kickit.handleCommand pathJoin ctxt cmd).1 = ctxt
      ∧ cmd.Service ∉ (Kickit.handleCommand pathJoin ctxt cmd).1.children.keys
      ∧ (∀ child c, SupEvent.forward child c ∉ (Kickit.handleCommand pathJoin ctxt cmd).2)
      ∧ (∀ child, SupEvent.spawn child ∉ (Kickit.handleCommand pathJoin ctxt cmd).2) := by
  have hnone := GoMap.lookup_eq_none_of_not_mem ctxt.children cmd.Service hkey
  have hres : Kickit.handleCommand pathJoin ctxt cmd
      = (ctxt, [SupEvent.reply cmd (NewResponse RES_ERROR (lit "Service does not exist"))]) := by
    simp [Kickit.handleCommand, hnone, hup, hrestart]
  rw [hres]
  refine ⟨rfl, rfl, hkey, ?_, ?_⟩
  · intro child c h
    simp at h
  · intro child h
    simp at h

/-- C1 at a concrete input: STOP for the unknown service `web` on a table
holding only `db`. -/
theorem handleCommand_unknown_service_witness :
    (Kickit.handleCommand (fun a b => a ++ lit "/" ++ b)
        ⟨lit "/srv", lit "/srv/.kcontrol",
          ⟨[(lit "db", ⟨lit "db", lit "/srv/db", lit "/srv/db/run", false, none, 0⟩)]⟩⟩
        ⟨CMD_DOWN, lit "web", GoMap.empty, true⟩).2
      = [SupEvent.reply ⟨CMD_DOWN, lit "web", GoMap.empty, true⟩
          { Status := RES_ERROR, Message := lit "Service does not exist",
            Data := GoMap.empty }] :=
  (handleCommand_unknown_service (fun a b => a ++ lit "/" ++ b)
    ⟨lit "/srv", lit "/srv/.kcontrol",
      ⟨[(lit "db", ⟨lit "db", lit "/srv/db", lit "/srv/db/run", false, none, 0⟩)]⟩⟩
    ⟨CMD_DOWN, lit "web", GoMap.empty, true⟩
    (by decide) (by decide) (by decide)).1

/-! ### The service actor -/

/-- The call `getFds` sends no removal notification and never returns the
error `ErrNotRunning`. -/
theorem getFds_spec (env : Env) (kp : KickitProcess) (h : List Event) :
    (∀ n, (kp.getFds env h).2.count (Event.deadSend n) = h.count (Event.deadSend n))
      ∧ (kp.getFds env h).1 ≠ Except.error Error.ErrNotRunning := by
  unfold KickitProcess.getFds
  simp only
  split
  · simp [List.count_cons]
  · split
    · simp [List.count_cons]
    · split <;> simp [List.count_cons]

/-- The call `start` on an actor that tracks a process returns its pid and
does nothing else. -/
theorem start_of_tracked (env : Env) (kp : KickitProcess) (h : List Event) (proc : Process)
    (hp : kp.process = some proc) :
    kp.start env h = ((proc.Pid, none), { kp with wantDown := false }, h) := by
  simp [KickitProcess.start, hp]

/-- The two ways `start` ends on an actor that tracks no process: with an
error other than `ErrNotRunning`, having sent one removal notification; or
with a new process, having sent none. -/
theorem start_of_untracked (env : Env) (kp : KickitProcess) (h : List Event)
    (hp : kp.process = none) :
    (∃ err, (kp.start env h).1 = (-1, some err) ∧ err ≠ Error.ErrNotRunning
      ∧ (kp.start env h).2.1 = { kp with wantDown := false }
      ∧ ∀ n, (kp.start env h).2.2.count (Event.deadSend n)
          = h.count (Event.deadSend n) + (if n = kp.name then 1 else 0))
    ∨ (∃ proc t, (kp.start env h).1 = (proc.Pid, none)
      ∧ (kp.start env h).2.1
          = { kp with wantDown := false, process := some proc, startedAt := t }
      ∧ ∀ n, (kp.start env h).2.2.count (Event.deadSend n) = h.count (Event.deadSend n)) := by
  unfold KickitProcess.start
  simp only [hp]
  split
  · left
    refine ⟨_, rfl, by simp, rfl, ?_⟩
    intro n
    by_cases hn : n = kp.name <;> simp [KickitProcess.remove, List.count_cons, hn]
  · obtain ⟨hg, hne⟩ := getFds_spec env { kp with wantDown := false }
      (h ++ [Event.isDirectory kp.runDir])
    simp only [hp] at hg hne
    split
    · rename_i err h1 hfd
      rw [hfd] at hg hne
      left
      refine ⟨err, rfl, ?_, rfl, ?_⟩
      · intro he
        exact hne (by rw [he])
      · intro n
        by_cases hn : n = kp.name <;>
          simp [KickitProcess.remove, List.count_cons, hn, hg]
    · rename_i fds h1 hfd
      rw [hfd] at hg
      split
      · left
        refine ⟨_, rfl, by simp, rfl, ?_⟩
        intro n
        by_cases hn : n = kp.name <;>
          simp [KickitProcess.remove, List.count_cons, hn, hg]
      · right
        refine ⟨_, _, rfl, rfl, ?_⟩
        intro n
        simp [List.count_cons, hg]

/-- After `start` returns without error a process is tracked and its pid is
the one returned. -/
theorem start_ok_tracked (env : Env) (kp : KickitProcess) (h : List Event)
    (hok : (kp.start env h).1.2 = none) :
    (kp.start env h).2.1.process = some ⟨(kp.start env h).1.1⟩ := by
  cases hp : kp.process with
  | some proc => simp [start_of_tracked env kp h proc hp, hp]
  | none =>
    rcases start_of_untracked env kp h hp with ⟨err, hr, _⟩ | ⟨proc, t, hr, hs, _⟩
    · rw [hr] at hok
      simp at hok
    · rw [hr, hs]

/-- The call `start` never returns the error `ErrNotRunning`. -/
theorem start_ne_notRunning (env : Env) (kp : KickitProcess) (h : List Event) :
    (kp.start env h).1.2 ≠ some Error.ErrNotRunning := by
  cases hp : kp.process with
  | some proc => simp [start_of_tracked env kp h proc hp]
  | none =>
    rcases start_of_untracked env kp h hp with ⟨err, hr, hne, _⟩ | ⟨proc, t, hr, _⟩
    · rw [hr]
      simpa using hne
    · rw [hr]
      simp

/-- After `start` returns the wants-down flag is clear. -/
theorem start_wantDown (env : Env) (kp : KickitProcess) (h : List Event) :
    (kp.start env h).2.1.wantDown = false := by
  cases hp : kp.process with
  | some proc => simp [start_of_tracked env kp h proc hp]
  | none =>
    rcases start_of_untracked env kp h hp with ⟨err, _, _, hs, _⟩ | ⟨proc, t, _, hs, _⟩ <;> rw [hs]

/-- The call `start` keeps the name of the actor. -/
theorem start_name (env : Env) (kp : KickitProcess) (h : List Event) :
    (kp.start env h).2.1.name = kp.name := by
  cases hp : kp.process with
  | some proc => simp [start_of_tracked env kp h proc hp]
  | none =>
    rcases start_of_untracked env kp h hp with ⟨err, _, _, hs, _⟩ | ⟨proc, t, _, hs, _⟩ <;> rw [hs]

/-- The call `start` sends one removal notification when it returns an
error and none when it returns a pid. -/
theorem start_removals (env : Env) (kp : KickitProcess) (h : List Event) :
    removals kp.name (kp.start env h).2.2
      = removals kp.name h + (if startFailed (some (kp.start env h).1) then 1 else 0) := by
  cases hp : kp.process with
  | some proc => simp [start_of_tracked env kp h proc hp, startFailed]
  | none =>
    rcases start_of_untracked env kp h hp with ⟨err, hr, _, _, hc⟩ | ⟨proc, t, hr, _, hc⟩
    · simp [removals, startFailed, hr, hc]
    · simp [removals, startFailed, hr, hc]

/-- The call `stop` on an actor that tracks no process. -/
theorem stop_of_untracked (env : Env) (kp : KickitProcess) (h : List Event)
    (hp : kp.process = none) :
    kp.stop env h = (some (none, some Error.ErrNotRunning), { kp with wantDown := true }, h) := by
  simp [KickitProcess.stop, hp]

/-- The call `start` does not read the wants-down flag. -/
theorem start_wantDown_irrelevant (env : Env) (kp : KickitProcess) (h : List Event) (b : Bool) :
    KickitProcess.start env { kp with wantDown := b } h = kp.start env h := by
  simp [KickitProcess.start, KickitProcess.getFds, KickitProcess.remove]

/-- Handling an Up command is `start` followed by the reply. -/
theorem handleCommand_up (env : Env) (kp : KickitProcess) (cmd : KickitCommand)
    (h : List Event) (hact : cmd.Action = CMD_UP) :
    kp.handleCommand env cmd h
      = (some (some (startResponse (kp.start env h).1)), (kp.start env h).2.1,
          (kp.start env h).2.2 ++ [Event.reply cmd (some (startResponse (kp.start env h).1))]) := by
  simp [KickitProcess.handleCommand, hact]

/-- C2: on an actor that tracks a process, an Up command is answered with
Success and the pid of that process; the reply is its only effect (no
descriptor is acquired, nothing is launched, no wait task is started, no
removal is signalled), and the handle and the start timestamp stay as they
were.  Hence a second Up command right after it gets the same answer, and
so does, from any state at all, an Up command that follows a successful
one. -/
theorem start_idempotent (env : Env) (kp : KickitProcess) (cmd : KickitCommand)
    (h : List Event) (proc : Process)
    (hp : kp.process = some proc) (hact : cmd.Action = CMD_UP) :
    kp.handleCommand env cmd h
        = (some (some ⟨RES_SUCCESS, lit "Service started", ⟨[(lit "pid", Sprintf_d proc.Pid)]⟩⟩),
            { kp with wantDown := false },
            h ++ [Event.reply cmd
              (some ⟨RES_SUCCESS, lit "Service started", ⟨[(lit "pid", Sprintf_d proc.Pid)]⟩⟩)])
      ∧ (kp.handleCommand env cmd h).2.1.process = some proc
      ∧ (kp.handleCommand env cmd h).2.1.startedAt = kp.startedAt
      ∧ (∀ (env2 : Env) (cmd2 : KickitCommand), cmd2.Action = CMD_UP →
          ((kp.handleCommand env cmd h).2.1.handleCommand env2 cmd2
              (kp.handleCommand env cmd h).2.2).1
            = (kp.handleCommand env cmd h).1)
      ∧ (∀ (env1 env2 : Env) (kp0 : KickitProcess) (h0 : List Event) (cmd2 : KickitCommand)
          (res : KickitResponse), cmd2.Action = CMD_UP →
          (kp0.handleCommand env1 cmd h0).1 = some (some res) → res.Status = RES_SUCCESS →
          ((kp0.handleCommand env1 cmd h0).2.1.handleCommand env2 cmd2
              (kp0.handleCommand env1 cmd h0).2.2).1 = some (some res)) := by
  have hgen : ∀ (env1 env2 : Env) (kp0 : KickitProcess) (h0 : List Event)
      (cmd2 : KickitCommand) (res : KickitResponse), cmd2.Action = CMD_UP →
      (kp0.handleCommand env1 cmd h0).1 = some (some res) → res.Status = RES_SUCCESS →
      ((kp0.handleCommand env1 cmd h0).2.1.handleCommand env2 cmd2
          (kp0.handleCommand env1 cmd h0).2.2).1 = some (some res) := by
    intro env1 env2 kp0 h0 cmd2 res hact2 hres hst
    rw [handleCommand_up env1 kp0 cmd h0 hact] at hres ⊢
    simp only [Option.some.injEq] at hres
    have hok : (kp0.start env1 h0).1.2 = none := by
      cases herr : (kp0.start env1 h0).1.2 with
      | none => rfl
      | some err =>
        rw [← hres] at hst
        simp [startResponse, herr, NewResponse, RES_ERROR, RES_SUCCESS] at hst
    have htr := start_ok_tracked env1 kp0 h0 hok
    rw [handleCommand_up env2 _ cmd2 _ hact2]
    simp only [start_of_tracked env2 _ _ _ htr, Option.some.injEq]
    rw [← hres]
    simp [startResponse, hok]
  have h1 : kp.handleCommand env cmd h
      = (some (some ⟨RES_SUCCESS, lit "Service started", ⟨[(lit "pid", Sprintf_d proc.Pid)]⟩⟩),
          { kp with wantDown := false },
          h ++ [Event.reply cmd
            (some ⟨RES_SUCCESS, lit "Service started", ⟨[(lit "pid", Sprintf_d proc.Pid)]⟩⟩)]) := by
    rw [handleCommand_up env kp cmd h hact, start_of_tracked env kp h proc hp]
    simp [startResponse, NewResponse, GoMap.insert, GoMap.erase, GoMap.empty]
  refine ⟨h1, ?_, ?_, ?_, hgen⟩
  · rw [h1]
    exact hp
  · rw [h1]
  · intro env2 cmd2 hact2
    have := hgen env env2 kp h cmd2 _ hact2 (by rw [h1]) rfl
    rw [this, h1]

/-- C8: on an actor that tracks no process, a Down command is answered with
Error, the text of `ErrNotRunning` ("process: process not running") and no
data; the reply is its only effect (no signal is sent, no exit notification
is awaited), and the handle stays absent. -/
theorem stop_when_down (env : Env) (kp : KickitProcess) (cmd : KickitCommand)
    (h : List Event) (hp : kp.process = none) (hact : cmd.Action = CMD_DOWN) :
    kp.handleCommand env cmd h
        = (some (some ⟨RES_ERROR, lit "process: process not running", GoMap.empty⟩),
            { kp with wantDown := true },
            h ++ [Event.reply cmd
              (some ⟨RES_ERROR, lit "process: process not running", GoMap.empty⟩)])
      ∧ Error.ErrNotRunning.String = lit "process: process not running"
      ∧ (kp.handleCommand env cmd h).2.1.process = none
      ∧ (∀ pid sig, Event.kill pid sig ∉ (kp.handleCommand env cmd h).2.2.drop h.length)
      ∧ (∀ msg, Event.recvWait msg ∉ (kp.handleCommand env cmd h).2.2.drop h.length) := by
  have hne : ¬ (CMD_DOWN = CMD_UP) := by decide
  have h1 : kp.handleCommand env cmd h
      = (some (some ⟨RES_ERROR, lit "process: process not running", GoMap.empty⟩),
          { kp with wantDown := true },
          h ++ [Event.reply cmd
            (some ⟨RES_ERROR, lit "process: process not running", GoMap.empty⟩)]) := by
    simp [KickitProcess.handleCommand, hact, hne, stop_of_untracked env kp h hp, stopResponse,
      NewResponse, Error.String]
  refine ⟨h1, rfl, ?_, ?_, ?_⟩
  · rw [h1]
    exact hp
  · intro pid sig
    rw [h1]
    simp
  · intro msg
    rw [h1]
    simp

/-- C2 at a concrete input: START for the running service `web`. -/
theorem start_idempotent_witness :
    webUp.handleCommand envUp ⟨CMD_UP, lit "web", GoMap.empty, true⟩ []
      = (some (some ⟨RES_SUCCESS, lit "Service started", ⟨[(lit "pid", lit "4321")]⟩⟩),
          webUp,
          [Event.reply ⟨CMD_UP, lit "web", GoMap.empty, true⟩
            (some ⟨RES_SUCCESS, lit "Service started", ⟨[(lit "pid", lit "4321")]⟩⟩)]) :=
  (start_idempotent envUp webUp ⟨CMD_UP, lit "web", GoMap.empty, true⟩ [] ⟨4321⟩ rfl rfl).1

/-- C8 at a concrete input: STOP for the service `web` that is down. -/
theorem stop_when_down_witness :
    webDown.handleCommand envUp ⟨CMD_DOWN, lit "web", GoMap.empty, true⟩ []
      = (some (some ⟨RES_ERROR, lit "process: process not running", GoMap.empty⟩),
          { webDown with wantDown := true },
          [Event.reply ⟨CMD_DOWN, lit "web", GoMap.empty, true⟩
            (some ⟨RES_ERROR, lit "process: process not running", GoMap.empty⟩)]) :=
  (stop_when_down envUp webDown ⟨CMD_DOWN, lit "web", GoMap.empty, true⟩ [] rfl rfl).1

/-- Handling a Restart command whose `stop` returns is `start` on the state
that `stop` left, followed by the reply. -/
theorem handleCommand_restart (env : Env) (kp : KickitProcess) (cmd : KickitCommand)
    (h : List Event) (hact : cmd.Action = CMD_RESTART)
    (r : Option Waitmsg × Option Error) (kp1 : KickitProcess) (h1 : List Event)
    (hs : kp.stop env h = (some r, kp1, h1)) :
    kp.handleCommand env cmd h
      = (some (some (startResponse (kp1.start env h1).1)), (kp1.start env h1).2.1,
          (kp1.start env h1).2.2
            ++ [Event.reply cmd (some (startResponse (kp1.start env h1).1))]) := by
  have h0 : ¬ (CMD_RESTART = CMD_UP) := by decide
  have h1 : ¬ (CMD_RESTART = CMD_DOWN) := by decide
  simp [KickitProcess.handleCommand, hact, h0, h1, hs]

/-- C9: handling a Restart command gives the response and the final actor
state of running `stop` (whatever it returns, an exit status or
`ErrNotRunning`) and then handling an Up command on the state and effects
that `stop` left; the two runs perform the same effects up to the command
named in the reply.  When `stop` never returns neither does Restart.  The
response is built from a result of `start`, whose error is never
`ErrNotRunning`; after Restart the wants-down flag is clear; and on an actor
that tracks no process Restart answers exactly as an Up command does. -/
theorem restart_is_stop_then_start (env : Env) (kp : KickitProcess)
    (cmd up : KickitCommand) (h : List Event)
    (hact : cmd.Action = CMD_RESTART) (hup : up.Action = CMD_UP) :
    (∀ kp1 h1, kp.stop env h = (none, kp1, h1) →
        kp.handleCommand env cmd h = (none, kp1, h1))
      ∧ (∀ r kp1 h1, kp.stop env h = (some r, kp1, h1) →
        (kp.handleCommand env cmd h).1 = (kp1.handleCommand env up h1).1
        ∧ (kp.handleCommand env cmd h).2.1 = (kp1.handleCommand env up h1).2.1
        ∧ (∃ g res, (kp.handleCommand env cmd h).2.2 = g ++ [Event.reply cmd res]
            ∧ (kp1.handleCommand env up h1).2.2 = g ++ [Event.reply up res])
        ∧ (kp.handleCommand env cmd h).2.1.wantDown = false
        ∧ (∃ r2 : Int × Option Error, r2.2 ≠ some Error.ErrNotRunning
            ∧ (kp.handleCommand env cmd h).1 = some (some (startResponse r2))))
      ∧ (kp.process = none →
        (kp.handleCommand env cmd h).1 = (kp.handleCommand env up h).1
        ∧ (kp.handleCommand env cmd h).2.1 = (kp.handleCommand env up h).2.1
        ∧ (kp.handleCommand env cmd h).2.1.wantDown = false) := by
  refine ⟨?_, ?_, ?_⟩
  · intro kp1 h1 hs
    have h0 : ¬ (CMD_RESTART = CMD_UP) := by decide
    have h1 : ¬ (CMD_RESTART = CMD_DOWN) := by decide
    simp [KickitProcess.handleCommand, hact, h0, h1, hs]
  · intro r kp1 h1 hs
    rw [handleCommand_restart env kp cmd h hact r kp1 h1 hs, handleCommand_up env kp1 up h1 hup]
    refine ⟨rfl, rfl, ⟨_, _, rfl, rfl⟩, start_wantDown env kp1 h1, ⟨_, ?_, rfl⟩⟩
    exact start_ne_notRunning env kp1 h1
  · intro hp
    rw [handleCommand_restart env kp cmd h hact _ _ _ (stop_of_untracked env kp h hp),
      handleCommand_up env kp up h hup, start_wantDown_irrelevant env kp h true]
    exact ⟨rfl, rfl, start_wantDown env kp h⟩

/-- C9 at a concrete input: RESTART for the running service `web`, whose
process dies on SIGTERM and is started again. -/
theorem restart_is_stop_then_start_witness :
    (webUp.handleCommand envUp ⟨CMD_RESTART, lit "web", GoMap.empty, true⟩ []).1
      = (KickitProcess.handleCommand envUp (webUp.stop envUp []).2.1
          ⟨CMD_UP, lit "web", GoMap.empty, true⟩ (webUp.stop envUp []).2.2).1 :=
  ((restart_is_stop_then_start envUp webUp ⟨CMD_RESTART, lit "web", GoMap.empty, true⟩
    ⟨CMD_UP, lit "web", GoMap.empty, true⟩ [] rfl rfl).2.1 _ _ _ rfl).1

/-- C10: on an actor that tracks a process, a Down command sets wants-down
and sends SIGTERM first, then arms the timer of `KILLPAUSE` (5 s).  If the
exit notification is delivered before the timer fires, no SIGKILL is sent.
If the timer fires first, one SIGKILL is sent after it and the actor waits
for the exit notification without timeout: as long as none arrives the call
does not return and nothing is answered.  On both paths, once the
notification is received, the handle is cleared and the answer is Success
"Service stopped" with `pid` and `msg` taken from the received exit
status. -/
theorem stop_escalation (env : Env) (kp : KickitProcess) (cmd : KickitCommand)
    (h : List Event) (proc : Process)
    (hp : kp.process = some proc) (hact : cmd.Action = CMD_DOWN) :
    (∀ msg, env.waitFirst (h ++ [Event.kill proc.Pid SIGTERM, Event.newTimer KILLPAUSE])
          = some msg →
        kp.handleCommand env cmd h
          = (some (some ⟨RES_SUCCESS, lit "Service stopped",
                ⟨[(lit "msg", env.WaitmsgString msg), (lit "pid", Sprintf_d msg.Pid)]⟩⟩),
              { kp with wantDown := true, process := none },
              h ++ [Event.kill proc.Pid SIGTERM, Event.newTimer KILLPAUSE,
                Event.recvWait msg, Event.timerStop,
                Event.reply cmd (some ⟨RES_SUCCESS, lit "Service stopped",
                  ⟨[(lit "msg", env.WaitmsgString msg), (lit "pid", Sprintf_d msg.Pid)]⟩⟩)]))
      ∧ (env.waitFirst (h ++ [Event.kill proc.Pid SIGTERM, Event.newTimer KILLPAUSE]) = none →
        (∀ msg, env.waitRecv (h ++ [Event.kill proc.Pid SIGTERM, Event.newTimer KILLPAUSE,
              Event.timerFired, Event.kill proc.Pid SIGKILL]) = some msg →
          kp.handleCommand env cmd h
            = (some (some ⟨RES_SUCCESS, lit "Service stopped",
                  ⟨[(lit "msg", env.WaitmsgString msg), (lit "pid", Sprintf_d msg.Pid)]⟩⟩),
                { kp with wantDown := true, process := none },
                h ++ [Event.kill proc.Pid SIGTERM, Event.newTimer KILLPAUSE,
                  Event.timerFired, Event.kill proc.Pid SIGKILL, Event.recvWait msg,
                  Event.reply cmd (some ⟨RES_SUCCESS, lit "Service stopped",
                    ⟨[(lit "msg", env.WaitmsgString msg), (lit "pid", Sprintf_d msg.Pid)]⟩⟩)]))
        ∧ (env.waitRecv (h ++ [Event.kill proc.Pid SIGTERM, Event.newTimer KILLPAUSE,
              Event.timerFired, Event.kill proc.Pid SIGKILL]) = none →
          kp.handleCommand env cmd h
            = (none, { kp with wantDown := true },
                h ++ [Event.kill proc.Pid SIGTERM, Event.newTimer KILLPAUSE,
                  Event.timerFired, Event.kill proc.Pid SIGKILL])))
      ∧ KILLPAUSE = 5 * 1000000000 := by
  have hne : ¬ (CMD_DOWN = CMD_UP) := by decide
  have hk1 : (lit "pid" != lit "msg") = true := by decide
  refine ⟨?_, ?_, by decide⟩
  · intro msg hw
    simp [KickitProcess.handleCommand, hact, hne, KickitProcess.stop, hp, hw, stopResponse,
      NewResponse, GoMap.insert, GoMap.erase, GoMap.empty, hk1]
  · intro hw
    refine ⟨?_, ?_⟩
    · intro msg hr
      simp [KickitProcess.handleCommand, hact, hne, KickitProcess.stop, hp, hw, hr,
        stopResponse, NewResponse, GoMap.insert, GoMap.erase, GoMap.empty, hk1]
    · intro hr
      simp [KickitProcess.handleCommand, hact, hne, KickitProcess.stop, hp, hw, hr]

/-- C10 at a concrete input: STOP for the running service `web`, whose
process outlives the timer and dies of SIGKILL. -/
theorem stop_escalation_witness :
    webUp.handleCommand envNoLog ⟨CMD_DOWN, lit "web", GoMap.empty, true⟩ []
      = (some (some ⟨RES_SUCCESS, lit "Service stopped",
            ⟨[(lit "msg", lit "signal 9"), (lit "pid", lit "4321")]⟩⟩),
          { webUp with wantDown := true, process := none },
          [Event.kill 4321 SIGTERM, Event.newTimer KILLPAUSE,
            Event.timerFired, Event.kill 4321 SIGKILL, Event.recvWait ⟨4321, 9⟩,
            Event.reply ⟨CMD_DOWN, lit "web", GoMap.empty, true⟩
              (some ⟨RES_SUCCESS, lit "Service stopped",
                ⟨[(lit "msg", lit "signal 9"), (lit "pid", lit "4321")]⟩⟩)]) :=
  ((stop_escalation envNoLog webUp ⟨CMD_DOWN, lit "web", GoMap.empty, true⟩ [] ⟨4321⟩
    rfl rfl).2.1 rfl).1 ⟨4321, 9⟩ rfl

/-- The call `stop` sends no removal notification, keeps the name of the
actor and leaves the wants-down flag set. -/
theorem stop_spec (env : Env) (kp : KickitProcess) (h : List Event) :
    (∀ n, (kp.stop env h).2.2.count (Event.deadSend n) = h.count (Event.deadSend n))
      ∧ (kp.stop env h).2.1.name = kp.name
      ∧ (kp.stop env h).2.1.wantDown = true := by
  unfold KickitProcess.stop
  simp only
  split
  · simp
  · split
    · simp [List.count_cons]
    · split <;> simp [List.count_cons]

/-- The first half of `uponDeath` sends no removal notification, keeps the
name of the actor and clears the handle. -/
theorem uponDeathPause_spec (env : Env) (kp : KickitProcess) (h : List Event) :
    (∀ n, (kp.uponDeathPause env h).2.count (Event.deadSend n) = h.count (Event.deadSend n))
      ∧ (kp.uponDeathPause env h).1.name = kp.name
      ∧ (kp.uponDeathPause env h).1.process = none := by
  unfold KickitProcess.uponDeathPause
  simp only
  split <;> simp [List.count_cons]

/-- C3 fails as stated, at two concrete inputs.  START for the service `web`
whose run directory exists but whose log directory cannot be made: the
actor sends a removal notification although `start` failed with
`ErrCreatingLogDir`, not `ErrNoProcRoot`.  STOP for the running service
`web`: no `start` is run at all, yet the actor sends a removal notification
and leaves its loop. -/
theorem removal_without_missing_root :
    (KickitProcess.run envNoLog [ActorInput.command ⟨CMD_UP, lit "web", GoMap.empty, true⟩]
        webDown []
      = (LoopEnd.selecting, webDown,
          [Event.isDirectory (lit "/srv/web"), Event.mkdirAll (lit "/srv/web/log/main") 0o755,
            Event.deadSend (lit "web"),
            Event.reply ⟨CMD_UP, lit "web", GoMap.empty, true⟩
              (some ⟨RES_ERROR, lit "process: error creating log directory", GoMap.empty⟩)])
      ∧ webDown.startCall envNoLog [] (ActorInput.command ⟨CMD_UP, lit "web", GoMap.empty, true⟩)
          = some (-1, some Error.ErrCreatingLogDir))
    ∧ (KickitProcess.run envUp [ActorInput.command ⟨CMD_DOWN, lit "web", GoMap.empty, true⟩]
        webUp []
      = (LoopEnd.left, { webUp with wantDown := true, process := none },
          [Event.kill 4321 SIGTERM, Event.newTimer KILLPAUSE, Event.recvWait ⟨4321, 0⟩,
            Event.timerStop,
            Event.reply ⟨CMD_DOWN, lit "web", GoMap.empty, true⟩
              (some ⟨RES_SUCCESS, lit "Service stopped",
                ⟨[(lit "msg", lit "exit status 0"), (lit "pid", lit "4321")]⟩⟩),
            Event.deadSend (lit "web")])
      ∧ webUp.startCall envUp [] (ActorInput.command ⟨CMD_DOWN, lit "web", GoMap.empty, true⟩)
          = none) := by
  refine ⟨⟨?_, ?_⟩, ?_, ?_⟩ <;> rfl

/-- The loop of `run` on no input: it sends the removal notification and
leaves when wants-down is set, else it stays at its `select`. -/
theorem run_nil (env : Env) (kp : KickitProcess) (h : List Event) :
    KickitProcess.run env [] kp h
      = if kp.wantDown then (LoopEnd.left, kp, kp.remove h) else (LoopEnd.selecting, kp, h) := by
  simp [KickitProcess.run]

/-- C3 (amended): for every actor state at the `select` of its loop (wants-down
clear) and every input the loop handles, the removal notifications sent as a
result are exactly: one when the input ran a `start` that returned an error,
whatever the error (missing run directory, descriptor or log acquisition,
launch failure), and one more when the loop is then left; and the loop is
left exactly after a Down command whose `stop` returned. -/
theorem removal_iff_failed_start_or_down (env : Env) (kp : KickitProcess) (h : List Event)
    (input : ActorInput) (hw : kp.wantDown = false) :
    removals kp.name (KickitProcess.run env [input] kp h).2.2
        = removals kp.name h
          + (if startFailed (kp.startCall env h input) then 1 else 0)
          + (if (KickitProcess.run env [input] kp h).1 = LoopEnd.left then 1 else 0)
      ∧ ((KickitProcess.run env [input] kp h).1 = LoopEnd.left
        ↔ ∃ cmd, input = ActorInput.command cmd ∧ cmd.Action = CMD_DOWN
            ∧ (kp.stop env h).1 ≠ none) := by
  have hdu : ¬ (CMD_DOWN = CMD_UP) := by decide
  have hru : ¬ (CMD_RESTART = CMD_UP) := by decide
  have hrd : ¬ (CMD_RESTART = CMD_DOWN) := by decide
  have hdr : ¬ (CMD_DOWN = CMD_RESTART) := by decide
  have hud : ¬ (CMD_UP = CMD_DOWN) := by decide
  cases input with
  | command cmd =>
    by_cases hup : cmd.Action = CMD_UP
    · have hrun : KickitProcess.run env [ActorInput.command cmd] kp h
          = (LoopEnd.selecting, (kp.start env h).2.1,
              (kp.start env h).2.2
                ++ [Event.reply cmd (some (startResponse (kp.start env h).1))]) := by
        rw [KickitProcess.run]
        simp only [hw, Bool.false_eq_true, if_false, handleCommand_up env kp cmd h hup]
        rw [run_nil]
        simp [start_wantDown]
      rw [hrun]
      have hc := start_removals env kp h
      simp only [removals] at hc ⊢
      simp [KickitProcess.startCall, hup, hdu, hud, List.count_cons, hc]
    · by_cases hdown : cmd.Action = CMD_DOWN
      · obtain ⟨hcnt, hname, hwd⟩ := stop_spec env kp h
        cases hs : kp.stop env h with
        | mk r rest =>
          cases rest with
          | mk kp1 h1 =>
            rw [hs] at hcnt hname hwd
            simp only at hcnt hname hwd
            cases r with
            | none =>
              have hrun : KickitProcess.run env [ActorInput.command cmd] kp h
                  = (LoopEnd.stuck, kp1, h1) := by
                rw [KickitProcess.run]
                simp [hw, KickitProcess.handleCommand, hdown, hdu, hs]
              rw [hrun]
              simp [removals, KickitProcess.startCall, hdown, hdu, hdr, startFailed, hcnt]
            | some r =>
              have hrun : KickitProcess.run env [ActorInput.command cmd] kp h
                  = (LoopEnd.left, kp1,
                      h1 ++ [Event.reply cmd (stopResponse env r), Event.deadSend kp.name]) := by
                rw [KickitProcess.run]
                simp only [hw, Bool.false_eq_true, if_false, if_true, KickitProcess.handleCommand,
                  hdown, hdu, hs]
                rw [run_nil]
                simp [hwd, KickitProcess.remove, hname]
              rw [hrun]
              simp [removals, KickitProcess.startCall, hdown, hdu, hdr, startFailed, hcnt,
                List.count_cons]
      · by_cases hre : cmd.Action = CMD_RESTART
        · obtain ⟨hcnt, hname, hwd⟩ := stop_spec env kp h
          cases hs : kp.stop env h with
          | mk r rest =>
            cases rest with
            | mk kp1 h1 =>
              rw [hs] at hcnt hname hwd
              simp only at hcnt hname hwd
              cases r with
              | none =>
                have hrun : KickitProcess.run env [ActorInput.command cmd] kp h
                    = (LoopEnd.stuck, kp1, h1) := by
                  rw [KickitProcess.run]
                  simp [hw, KickitProcess.handleCommand, hre, hru, hrd, hs]
                rw [hrun]
                simp [removals, KickitProcess.startCall, hre, hru, hrd, startFailed, hcnt, hs]
              | some r =>
                have hrun : KickitProcess.run env [ActorInput.command cmd] kp h
                    = (LoopEnd.selecting, (kp1.start env h1).2.1,
                        (kp1.start env h1).2.2
                          ++ [Event.reply cmd (some (startResponse (kp1.start env h1).1))]) := by
                  rw [KickitProcess.run]
                  simp only [hw, Bool.false_eq_true, if_false,
                    handleCommand_restart env kp cmd h hre r kp1 h1 hs]
                  rw [run_nil]
                  simp [start_wantDown]
                rw [hrun]
                have hc := start_removals env kp1 h1
                rw [hname] at hc
                simp only [removals] at hc ⊢
                simp [KickitProcess.startCall, hre, hru, hrd, hs, List.count_cons, hc, hcnt]
        · have hrun : KickitProcess.run env [ActorInput.command cmd] kp h
              = (LoopEnd.selecting, kp, h ++ [Event.reply cmd none]) := by
            rw [KickitProcess.run]
            simp only [hw, Bool.false_eq_true, if_false, KickitProcess.handleCommand, hup, hdown,
              hre]
            rw [run_nil]
            simp [hw]
          rw [hrun]
          simp [removals, KickitProcess.startCall, hup, hdown, hre, startFailed, List.count_cons]
  | exited msg =>
    obtain ⟨hcnt, hname, _⟩ := uponDeathPause_spec env kp (h ++ [Event.recvWait msg])
    cases hs : kp.uponDeathPause env (h ++ [Event.recvWait msg]) with
    | mk kp1 h1 =>
      rw [hs] at hcnt hname
      simp only at hcnt hname
      have hrun : KickitProcess.run env [ActorInput.exited msg] kp h
          = (LoopEnd.selecting, (kp1.start env h1).2.1, (kp1.start env h1).2.2) := by
        rw [KickitProcess.run]
        simp only [hw, Bool.false_eq_true, if_false, KickitProcess.uponDeath, hs]
        rw [run_nil]
        simp [start_wantDown]
      rw [hrun]
      have hc := start_removals env kp1 h1
      rw [hname] at hc
      simp only [removals] at hc ⊢
      simp [KickitProcess.startCall, hs, List.count_cons, hc, hcnt]

/-- C3 (amended) at a concrete input: START for the service `web` whose log
directory cannot be made sends one removal notification. -/
theorem removal_iff_failed_start_or_down_witness :
    removals (lit "web")
        (KickitProcess.run envNoLog
          [ActorInput.command ⟨CMD_UP, lit "web", GoMap.empty, true⟩] webDown []).2.2
      = 0 + 1 + 0 :=
  (removal_iff_failed_start_or_down envNoLog webDown []
    (ActorInput.command ⟨CMD_UP, lit "web", GoMap.empty, true⟩) rfl).1

/-! ### The wire protocol: reading a line -/

/-- Splitting after the first `d`, when it is known where the first `d` is. -/
theorem splitAfter_append (d : Byte) (pre rest : List Byte) (hpre : d ∉ pre) :
    splitAfter d (pre ++ d :: rest) = some (pre ++ [d], rest) := by
  induction pre with
  | nil => simp [splitAfter]
  | cons c pre ih =>
    have hc : c ≠ d := fun hcd => hpre (by simp [hcd])
    have hp : d ∉ pre := fun hm => hpre (by simp [hm])
    simp [splitAfter, hc, ih hp]

/-- Splitting after `d` fails on bytes without `d`. -/
theorem splitAfter_none (d : Byte) (l : List Byte) (hl : d ∉ l) : splitAfter d l = none := by
  induction l with
  | nil => rfl
  | cons c l ih =>
    have hc : c ≠ d := fun hcd => hl (by simp [hcd])
    have hp : d ∉ l := fun hm => hl (by simp [hm])
    simp [splitAfter, hc, ih hp]

/-- What splitting returns makes up the input, and the first part is not
empty. -/
theorem splitAfter_some (d : Byte) (l line rest : List Byte)
    (h : splitAfter d l = some (line, rest)) : l = line ++ rest ∧ line ≠ [] := by
  induction l generalizing line with
  | nil => simp [splitAfter] at h
  | cons c l ih =>
    unfold splitAfter at h
    by_cases hc : c = d
    · simp only [hc, if_true, Option.some.injEq, Prod.mk.injEq] at h
      obtain ⟨h1, h2⟩ := h
      subst h1 h2
      simp [hc]
    · simp only [hc, if_false] at h
      cases hs : splitAfter d l with
      | none => simp [hs] at h
      | some p =>
        obtain ⟨line1, rest1⟩ := p
        simp only [hs, Option.some.injEq, Prod.mk.injEq] at h
        obtain ⟨h1, h2⟩ := h
        subst h1 h2
        obtain ⟨hl, _⟩ := ih line1 hs
        simp [hl]

/-- Reading a line: the text of a line followed by its terminator is read
as that text, and the reader is left right after the terminator. -/
theorem readControlLine_line (crlf : Bool) (text rest : List Byte) (e : Error)
    (ht : lineBody crlf text) :
    readControlLine ⟨text ++ terminator crlf ++ rest, e⟩ = (.ok text, ⟨rest, e⟩) := by
  obtain ⟨hlf, hcr⟩ := ht
  cases crlf with
  | true =>
    have hpre : (10 : Byte) ∉ text ++ [13] := by simp [hlf]
    have hsplit := splitAfter_append 10 (text ++ [13]) rest hpre
    have hdata : text ++ terminator true ++ rest = (text ++ [13]) ++ 10 :: rest := by
      simp [terminator, CRLF]
    rw [hdata]
    simp only [readControlLine, Reader.ReadBytes, hsplit]
    have hlen : (text ++ [13] ++ [10]).length = text.length + 2 := by simp
    have hget : (text ++ [13] ++ [10]).getD (text.length + 2 - 2) 0 = 13 := by
      have h2 : text ++ [13] ++ [10] = text ++ [13, 10] := by simp
      rw [h2, Nat.add_sub_cancel, List.getD_append_right _ _ _ _ (Nat.le_refl _)]
      simp
    rw [if_pos (by rw [hlen, hget]; exact ⟨by omega, rfl⟩), hlen]
    simp
  | false =>
    have hsplit := splitAfter_append 10 text rest hlf
    have hdata : text ++ terminator false ++ rest = text ++ 10 :: rest := by
      simp [terminator]
    rw [hdata]
    simp only [readControlLine, Reader.ReadBytes, hsplit]
    have hlen : (text ++ [10]).length = text.length + 1 := by simp
    have hno : ¬ ((text ++ [10]).length > 1
        ∧ (text ++ [10]).getD ((text ++ [10]).length - 2) 0 = 13) := by
      rintro ⟨h1, h2⟩
      apply hcr rfl
      rw [hlen] at h1 h2
      have hpos : text.length - 1 < text.length := by omega
      have hidx : text.length + 1 - 2 = text.length - 1 := by omega
      rw [hidx, List.getD_eq_getElem?_getD, List.getElem?_append_left hpos] at h2
      rw [List.getLast?_eq_getElem?]
      rw [List.getElem?_eq_getElem hpos] at h2 ⊢
      simpa using h2
    rw [if_neg hno, hlen]
    simp

/-- Reading a line from a stream that holds no LF gives the error of the
stream. -/
theorem readControlLine_eof (tail : List Byte) (e : Error) (ht : 10 ∉ tail) :
    readControlLine ⟨tail, e⟩ = (.error e, ⟨[], e⟩) := by
  simp [readControlLine, Reader.ReadBytes, splitAfter_none 10 tail ht]

/-- A line that was read took at least one byte from the reader. -/
theorem readControlLine_ok_shrinks (b b1 : Reader) (line : List Byte)
    (h : readControlLine b = (.ok line, b1)) :
    b1.data.length < b.data.length ∧ b1.err = b.err := by
  unfold readControlLine Reader.ReadBytes at h
  cases hs : splitAfter 10 b.data with
  | none => simp [hs] at h
  | some p =>
    obtain ⟨l, rest⟩ := p
    obtain ⟨hl, hne⟩ := splitAfter_some 10 b.data l rest hs
    have hpos : 0 < l.length := List.length_pos.mpr hne
    simp only [hs] at h
    split at h
    · simp only [Prod.mk.injEq] at h
      obtain ⟨_, hb⟩ := h
      subst hb
      simp [hl]
      omega
    · simp only [Prod.mk.injEq] at h
      obtain ⟨_, hb⟩ := h
      subst hb
      simp [hl]
      omega

/-- When reading a line fails, the error is that of the stream. -/
theorem readControlLine_error (b b1 : Reader) (err : Error)
    (h : readControlLine b = (.error err, b1)) : err = b.err ∧ b1.data = [] := by
  unfold readControlLine Reader.ReadBytes at h
  cases hs : splitAfter 10 b.data with
  | none =>
    simp only [hs, Prod.mk.injEq, Except.error.injEq] at h
    obtain ⟨h1, h2⟩ := h
    subst h2
    exact ⟨h1.symm, rfl⟩
  | some p =>
    obtain ⟨l, rest⟩ := p
    simp only [hs] at h
    split at h <;> simp at h

/-! ### The wire protocol: reading a request -/

/-- The index of a byte that occurs after a stretch without it. -/
theorem bytesIndex_append (c : Byte) (pre post : List Byte) (hpre : c ∉ pre) :
    bytesIndex (pre ++ c :: post) [c] = pre.length := by
  induction pre with
  | nil => simp [bytesIndex, List.isPrefixOf]
  | cons x pre ih =>
    have hx : ¬ (c = x) := fun hcx => hpre (by simp [hcx])
    have hp : c ∉ pre := fun hm => hpre (by simp [hm])
    have ih1 := ih hp
    have hlt : ¬ ((pre.length : Int) < 0) := by omega
    simp [bytesIndex, List.isPrefixOf, hx, ih1, hlt]

/-- The index of a byte that does not occur is -1. -/
theorem bytesIndex_absent (c : Byte) (s : List Byte) (hs : c ∉ s) : bytesIndex s [c] = -1 := by
  induction s with
  | nil => simp [bytesIndex]
  | cons x s ih =>
    have hx : ¬ (c = x) := fun hcx => hs (by simp [hcx])
    have hp : c ∉ s := fun hm => hs (by simp [hm])
    simp [bytesIndex, List.isPrefixOf, hx, ih hp]

/-- The index of a byte in a text is below 1 when the text lacks the byte
or starts with it. -/
theorem bytesIndex_lt_one (c : Byte) (s : List Byte) (hs : c ∉ s ∨ s.head? = some c) :
    bytesIndex s [c] < 1 := by
  rcases hs with hs | hs
  · rw [bytesIndex_absent c s hs]
    decide
  · cases s with
    | nil => simp at hs
    | cons x s =>
      simp only [List.head?_cons, Option.some.injEq] at hs
      simp [bytesIndex, List.isPrefixOf, hs]

/-- One turn of the loop on a blank line in state COMMAND: the line is
skipped. -/
theorem loop_blank_command (ToUpper : GoString → GoString) (fuel : Nat)
    (cmd : Option KickitCommand) (crlf : Bool) (rest : List Byte) (e : Error) :
    readControlCommandLoop ToUpper (fuel + 1) COMMAND cmd ⟨terminator crlf ++ rest, e⟩
      = readControlCommandLoop ToUpper fuel COMMAND cmd ⟨rest, e⟩ := by
  have hl := readControlLine_line crlf [] rest e ⟨by simp, by simp⟩
  simp only [List.nil_append] at hl
  simp [readControlCommandLoop, hl]

/-- One turn of the loop on a blank line in state KWARG: the request is
complete. -/
theorem loop_blank_kwarg (ToUpper : GoString → GoString) (fuel : Nat)
    (cmd : Option KickitCommand) (crlf : Bool) (rest : List Byte) (e : Error) :
    readControlCommandLoop ToUpper (fuel + 1) KWARG cmd ⟨terminator crlf ++ rest, e⟩
      = some (.ok cmd, ⟨rest, e⟩) := by
  have hl := readControlLine_line crlf [] rest e ⟨by simp, by simp⟩
  simp only [List.nil_append] at hl
  have hk : ¬ (KWARG = COMMAND) := by decide
  simp [readControlCommandLoop, hl, hk]

/-- One turn of the loop on a command line `A S`. -/
theorem loop_command_line (ToUpper : GoString → GoString) (fuel : Nat)
    (cmd : Option KickitCommand) (A S : GoString) (crlf : Bool) (rest : List Byte) (e : Error)
    (hA : A ≠ []) (hsp : 32 ∉ A) (hline : lineBody crlf (A ++ [32] ++ S)) :
    readControlCommandLoop ToUpper (fuel + 1) COMMAND cmd
        ⟨A ++ [32] ++ S ++ terminator crlf ++ rest, e⟩
      = readControlCommandLoop ToUpper fuel KWARG
          (some (NewCommand (StringToAction ToUpper A) S true)) ⟨rest, e⟩ := by
  have hl := readControlLine_line crlf (A ++ [32] ++ S) rest e hline
  have hidx : bytesIndex (A ++ [32] ++ S) [32] = A.length := by
    have := bytesIndex_append 32 A S hsp
    simpa using this
  have hpos : 0 < A.length := List.length_pos.mpr hA
  have hlt : ¬ ((A.length : Int) < 1) := by omega
  have hne : ¬ (A.length + (S.length + 1) = 0) := by omega
  simp only [readControlCommandLoop, hl, hidx, hlt, if_false, List.length_append,
    List.length_cons, List.length_nil, Int.toNat_ofNat, hne, if_true]
  simp

/-- One turn of the loop on a keyword line `K=V`. -/
theorem loop_keyword_line (ToUpper : GoString → GoString) (fuel : Nat)
    (c : KickitCommand) (K V : GoString) (crlf : Bool) (rest : List Byte) (e : Error)
    (hK : K ≠ []) (heq : 61 ∉ K) (hline : lineBody crlf (K ++ [61] ++ V)) :
    readControlCommandLoop ToUpper (fuel + 1) KWARG (some c)
        ⟨K ++ [61] ++ V ++ terminator crlf ++ rest, e⟩
      = readControlCommandLoop ToUpper fuel KWARG
          (some { c with Args := c.Args.insert K V }) ⟨rest, e⟩ := by
  have hl := readControlLine_line crlf (K ++ [61] ++ V) rest e hline
  have hidx : bytesIndex (K ++ [61] ++ V) [61] = K.length := by
    have := bytesIndex_append 61 K V heq
    simpa using this
  have hpos : 0 < K.length := List.length_pos.mpr hK
  have hlt : ¬ ((K.length : Int) < 1) := by omega
  have hne : ¬ (K.length + (V.length + 1) = 0) := by omega
  have hk : ¬ (KWARG = COMMAND) := by decide
  simp only [readControlCommandLoop, hl, hidx, hlt, if_false, List.length_append,
    List.length_cons, List.length_nil, Int.toNat_ofNat, hne, hk, if_true]
  simp

/-- One turn of the loop on a line that is not a command line. -/
theorem loop_bad_command_line (ToUpper : GoString → GoString) (fuel : Nat)
    (cmd : Option KickitCommand) (text : List Byte) (crlf : Bool) (rest : List Byte)
    (e : Error) (hne : text ≠ []) (hline : lineBody crlf text)
    (hbad : 32 ∉ text ∨ text.head? = some 32) :
    readControlCommandLoop ToUpper (fuel + 1) COMMAND cmd ⟨text ++ terminator crlf ++ rest, e⟩
      = some (.error Error.ErrInvalidCommandLine, ⟨rest, e⟩) := by
  have hl := readControlLine_line crlf text rest e hline
  have hlen : ¬ (text.length = 0) := fun h0 => hne (List.length_eq_zero.mp h0)
  simp only [readControlCommandLoop, hl]
  simp [hlen, bytesIndex_lt_one 32 text hbad]

/-- One turn of the loop on a line that is not a keyword line. -/
theorem loop_bad_keyword_line (ToUpper : GoString → GoString) (fuel : Nat)
    (cmd : Option KickitCommand) (text : List Byte) (crlf : Bool) (rest : List Byte)
    (e : Error) (hne : text ≠ []) (hline : lineBody crlf text)
    (hbad : 61 ∉ text ∨ text.head? = some 61) :
    readControlCommandLoop ToUpper (fuel + 1) KWARG cmd ⟨text ++ terminator crlf ++ rest, e⟩
      = some (.error Error.ErrInvalidKeywordLine, ⟨rest, e⟩) := by
  have hl := readControlLine_line crlf text rest e hline
  have hlen : ¬ (text.length = 0) := fun h0 => hne (List.length_eq_zero.mp h0)
  have hk : ¬ (KWARG = COMMAND) := by decide
  simp only [readControlCommandLoop, hl]
  simp [hlen, hk, bytesIndex_lt_one 61 text hbad]

/-- One turn of the loop on a stream that ends before the next LF. -/
theorem loop_eof (ToUpper : GoString → GoString) (fuel state : Nat)
    (cmd : Option KickitCommand) (tail : List Byte) (e : Error) (ht : 10 ∉ tail) :
    readControlCommandLoop ToUpper (fuel + 1) state cmd ⟨tail, e⟩
      = some (.error e, ⟨[], e⟩) := by
  simp [readControlCommandLoop, readControlLine_eof tail e ht]

/-- A terminator has at least one byte. -/
theorem terminator_length_pos (crlf : Bool) : 1 ≤ (terminator crlf).length := by
  cases crlf <;> simp [terminator, CRLF]

/-- A run of blank lines has at least a byte for each line. -/
theorem blankLines_length (blanks : List Bool) : blanks.length ≤ (blankLines blanks).length := by
  induction blanks with
  | nil => simp [blankLines]
  | cons c blanks ih =>
    have := terminator_length_pos c
    simp only [blankLines, List.length_cons, List.length_append]
    omega

/-- A run of keyword lines has at least a byte for each line. -/
theorem kwLines_length (kws : List (GoString × GoString × Bool)) :
    kws.length ≤ (kwLines kws).length := by
  induction kws with
  | nil => simp [kwLines]
  | cons kw kws ih =>
    obtain ⟨k, v, c⟩ := kw
    have := terminator_length_pos c
    simp only [kwLines, List.length_cons, List.length_append]
    omega

/-- The loop skips a run of blank lines in state COMMAND, a turn for each. -/
theorem loop_blanks (ToUpper : GoString → GoString) (blanks : List Bool) (fuel : Nat)
    (cmd : Option KickitCommand) (rest : List Byte) (e : Error) :
    readControlCommandLoop ToUpper (fuel + blanks.length) COMMAND cmd
        ⟨blankLines blanks ++ rest, e⟩
      = readControlCommandLoop ToUpper fuel COMMAND cmd ⟨rest, e⟩ := by
  induction blanks with
  | nil => simp [blankLines]
  | cons c blanks ih =>
    have hf : fuel + (c :: blanks).length = (fuel + blanks.length) + 1 := by
      simp only [List.length_cons]
      omega
    rw [hf]
    simp only [blankLines, List.append_assoc]
    rw [loop_blank_command, ih]

/-- The loop takes a run of keyword lines into the map, a turn for each. -/
theorem loop_keywords (ToUpper : GoString → GoString)
    (kws : List (GoString × GoString × Bool)) (fuel : Nat) (c : KickitCommand)
    (rest : List Byte) (e : Error)
    (hkws : ∀ kw ∈ kws, kw.1 ≠ [] ∧ 61 ∉ kw.1 ∧ lineBody kw.2.2 (kw.1 ++ [61] ++ kw.2.1)) :
    readControlCommandLoop ToUpper (fuel + kws.length) KWARG (some c)
        ⟨kwLines kws ++ rest, e⟩
      = readControlCommandLoop ToUpper fuel KWARG
          (some { c with Args := kws.foldl (fun m kw => m.insert kw.1 kw.2.1) c.Args })
          ⟨rest, e⟩ := by
  induction kws generalizing c with
  | nil => simp [kwLines]
  | cons kw kws ih =>
    obtain ⟨k, v, t⟩ := kw
    have hf : fuel + ((k, v, t) :: kws).length = (fuel + kws.length) + 1 := by
      simp only [List.length_cons]
      omega
    obtain ⟨hk, heq, hline⟩ := hkws (k, v, t) (by simp)
    have hrest : ∀ kw ∈ kws, kw.1 ≠ [] ∧ 61 ∉ kw.1
        ∧ lineBody kw.2.2 (kw.1 ++ [61] ++ kw.2.1) :=
      fun kw hm => hkws kw (by simp [hm])
    rw [hf]
    have hdata : kwLines ((k, v, t) :: kws) ++ rest
        = k ++ [61] ++ v ++ terminator t ++ (kwLines kws ++ rest) := by
      simp [kwLines]
    rw [hdata, loop_keyword_line ToUpper _ c k v t _ e hk heq hline, ih _ hrest]
    rfl

/-- Reading a request that starts with blank lines, a command line and
keyword lines: what the loop has built when it reaches the line after
them. -/
theorem readControlCommand_head (ToUpper : GoString → GoString) (blanks : List Bool)
    (A S : GoString) (crlf : Bool) (kws : List (GoString × GoString × Bool))
    (rest : List Byte) (e : Error)
    (hA : A ≠ []) (hsp : 32 ∉ A) (hline : lineBody crlf (A ++ [32] ++ S))
    (hkws : ∀ kw ∈ kws, kw.1 ≠ [] ∧ 61 ∉ kw.1 ∧ lineBody kw.2.2 (kw.1 ++ [61] ++ kw.2.1)) :
    ∃ fuel, readControlCommand ToUpper ⟨requestHead blanks A S crlf kws ++ rest, e⟩
      = readControlCommandLoop ToUpper (fuel + 1) KWARG
          (some ⟨StringToAction ToUpper A, S, argsOf kws, true⟩) ⟨rest, e⟩ := by
  have h1 := blankLines_length blanks
  have h2 := kwLines_length kws
  have h3 := terminator_length_pos crlf
  have hlen : (requestHead blanks A S crlf kws ++ rest).length
      = (blankLines blanks).length + (A.length + 1 + S.length) + (terminator crlf).length
        + (kwLines kws).length + rest.length := by
    simp [requestHead]
    omega
  have hN : blanks.length + kws.length + 2
      ≤ (requestHead blanks A S crlf kws ++ rest).length := by
    rw [hlen]
    omega
  obtain ⟨fuel, hfuel⟩ : ∃ fuel, (requestHead blanks A S crlf kws ++ rest).length + 1
      = (((fuel + 1) + kws.length) + 1) + blanks.length :=
    ⟨(requestHead blanks A S crlf kws ++ rest).length - (blanks.length + kws.length + 1),
      by omega⟩
  refine ⟨fuel, ?_⟩
  have hdata : requestHead blanks A S crlf kws ++ rest
      = blankLines blanks
        ++ (A ++ [32] ++ S ++ terminator crlf ++ (kwLines kws ++ rest)) := by
    simp [requestHead]
  unfold readControlCommand
  simp only [hfuel]
  rw [hdata, loop_blanks, loop_command_line ToUpper _ _ A S crlf _ e hA hsp hline,
    loop_keywords ToUpper kws _ _ rest e hkws]
  rfl

/-- The request of the statement of C5 is read as the command it spells. -/
theorem readControlCommand_request (ToUpper : GoString → GoString) (blanks : List Bool)
    (A S : GoString) (crlf : Bool) (kws : List (GoString × GoString × Bool))
    (last : Bool) (rest : List Byte) (e : Error)
    (hA : A ≠ []) (hsp : 32 ∉ A) (hline : lineBody crlf (A ++ [32] ++ S))
    (hkws : ∀ kw ∈ kws, kw.1 ≠ [] ∧ 61 ∉ kw.1 ∧ lineBody kw.2.2 (kw.1 ++ [61] ++ kw.2.1)) :
    readControlCommand ToUpper
        ⟨requestHead blanks A S crlf kws ++ terminator last ++ rest, e⟩
      = some (.ok (some ⟨StringToAction ToUpper A, S, argsOf kws, true⟩), ⟨rest, e⟩) := by
  obtain ⟨fuel, hfuel⟩ := readControlCommand_head ToUpper blanks A S crlf kws
    (terminator last ++ rest) e hA hsp hline hkws
  rw [List.append_assoc, hfuel, loop_blank_kwarg]

/-- C5: a byte stream made of blank lines, a line `A S` with `A` not empty and
without space, lines `K=V` with `K` not empty and without `=`, and a blank
line, each line ended by CRLF or by LF, is read by `readControlCommand`
without error as the command with action `StringToAction(A)` (Up, Down,
Restart when the upper-cased `A` is START, STOP, RESTART), service name `S`
and the keyword arguments `K -> V`, the last line winning for a repeated
key; nothing after the blank line is taken from the reader; and the same
lines with other terminators give the same command.  A line holds no LF, and
a line ended by a bare LF does not end in CR. -/
theorem readControlCommand_wellformed (ToUpper : GoString → GoString) (blanks : List Bool)
    (A S : GoString) (crlf : Bool) (kws : List (GoString × GoString × Bool))
    (last : Bool) (rest : List Byte) (e : Error)
    (hA : A ≠ []) (hsp : 32 ∉ A) (hline : lineBody crlf (A ++ [32] ++ S))
    (hkws : ∀ kw ∈ kws, kw.1 ≠ [] ∧ 61 ∉ kw.1 ∧ lineBody kw.2.2 (kw.1 ++ [61] ++ kw.2.1)) :
    readControlCommand ToUpper
        ⟨requestHead blanks A S crlf kws ++ terminator last ++ rest, e⟩
      = some (.ok (some ⟨StringToAction ToUpper A, S, argsOf kws, true⟩), ⟨rest, e⟩)
    ∧ (∀ k, (argsOf kws).lookup k
        = (kws.reverse.find? (fun kw => kw.1 == k)).map (fun kw => kw.2.1))
    ∧ (argsOf kws).WF
    ∧ ((ToUpper A = lit "START" → StringToAction ToUpper A = CMD_UP)
      ∧ (ToUpper A = lit "STOP" → StringToAction ToUpper A = CMD_DOWN)
      ∧ (ToUpper A = lit "RESTART" → StringToAction ToUpper A = CMD_RESTART))
    ∧ (∀ (blanks2 : List Bool) (crlf2 : Bool) (kws2 : List (GoString × GoString × Bool))
        (last2 : Bool),
        lineBody crlf2 (A ++ [32] ++ S) →
        (∀ kw ∈ kws2, kw.1 ≠ [] ∧ 61 ∉ kw.1 ∧ lineBody kw.2.2 (kw.1 ++ [61] ++ kw.2.1)) →
        kws2.map (fun kw => (kw.1, kw.2.1)) = kws.map (fun kw => (kw.1, kw.2.1)) →
        readControlCommand ToUpper
            ⟨requestHead blanks2 A S crlf2 kws2 ++ terminator last2 ++ rest, e⟩
          = readControlCommand ToUpper
            ⟨requestHead blanks A S crlf kws ++ terminator last ++ rest, e⟩) := by
  have hmain := readControlCommand_request ToUpper blanks A S crlf kws last rest e hA hsp
    hline hkws
  refine ⟨hmain, ?_, ?_, ⟨?_, ?_, ?_⟩, ?_⟩
  · intro k
    unfold argsOf
    have hl := GoMap.lookup_foldl_insert (fun kw : GoString × GoString × Bool => kw.1)
      (fun kw : GoString × GoString × Bool => kw.2.1) kws GoMap.empty k
    rw [hl]
    simp [GoMap.lookup, GoMap.empty]
  · exact GoMap.foldl_insert_WF (fun kw : GoString × GoString × Bool => kw.1)
      (fun kw : GoString × GoString × Bool => kw.2.1) kws GoMap.empty
      (by simp [GoMap.WF, GoMap.keys, GoMap.empty])
  · intro h
    simp [StringToAction, h]
  · intro h
    have h1 : ¬ (lit "STOP" = lit "START") := by decide
    simp [StringToAction, h, h1]
  · intro h
    have h1 : ¬ (lit "RESTART" = lit "START") := by decide
    have h2 : ¬ (lit "RESTART" = lit "STOP") := by decide
    simp [StringToAction, h, h1, h2]
  · intro blanks2 crlf2 kws2 last2 hline2 hkws2 hmap
    rw [hmain, readControlCommand_request ToUpper blanks2 A S crlf2 kws2 last2 rest e hA hsp
      hline2 hkws2, argsOf_congr kws kws2 hmap]

/-- C5 at a concrete input: two blank lines, `start web`, three keyword
lines of which two give the key `a`, and a blank line, with CRLF and LF
mixed, followed by the first bytes of the next request. -/
theorem readControlCommand_wellformed_witness :
    readControlCommand asciiUpper
        ⟨lit "\r\n\nstart web\r\na=b=c\nk=\na=z\r\n\r\nSTOP x", Error.os (lit "EOF")⟩
      = some (.ok (some ⟨CMD_UP, lit "web", ⟨[(lit "a", lit "z"), (lit "k", lit "")]⟩, true⟩),
          ⟨lit "STOP x", Error.os (lit "EOF")⟩) :=
  (readControlCommand_wellformed asciiUpper [true, false] (lit "start") (lit "web") true
    [(lit "a", lit "b=c", false), (lit "k", lit "", false), (lit "a", lit "z", true)]
    true (lit "STOP x") (Error.os (lit "EOF"))
    (by decide) (by decide) (by decide) (by decide)).1

/-- The loop of `readControlCommand` returns when it may take one turn more
than the reader has bytes, from the state in which it is entered or in which
a turn leaves it.  An error is that of the stream or one of the two parser
errors.  Without error the command is not nil, its action is a result of
`StringToAction`, and at least a byte was read. -/
theorem readControlCommandLoop_returns (ToUpper : GoString → GoString) :
    ∀ (fuel state : Nat) (cmd : Option KickitCommand) (b : Reader),
      b.data.length < fuel →
      (state = COMMAND ∨ (state = KWARG ∧ ∃ c A, cmd = some c
        ∧ c.Action = StringToAction ToUpper A)) →
      ∃ r b1, readControlCommandLoop ToUpper fuel state cmd b = some (r, b1)
        ∧ b1.err = b.err
        ∧ (∀ err, r = .error err → err = b.err ∨ err = Error.ErrInvalidCommandLine
            ∨ err = Error.ErrInvalidKeywordLine)
        ∧ (∀ c, r = .ok c → b1.data.length < b.data.length
            ∧ ∃ c1 A, c = some c1 ∧ c1.Action = StringToAction ToUpper A) := by
  intro fuel
  induction fuel with
  | zero => intro state cmd b hlt; omega
  | succ fuel ih =>
    intro state cmd b hlt hinv
    have hk : ¬ (KWARG = COMMAND) := by decide
    cases hl : readControlLine b with
    | mk res b2 =>
      cases res with
      | error err =>
        obtain ⟨herr, _⟩ := readControlLine_error b b2 err hl
        have hb2 : b2.err = b.err := by
          unfold readControlLine Reader.ReadBytes at hl
          cases hs : splitAfter 10 b.data with
          | none =>
            simp only [hs, Prod.mk.injEq] at hl
            rw [← hl.2]
          | some p =>
            simp only [hs] at hl
            split at hl <;> simp at hl
        refine ⟨.error err, b2, by simp [readControlCommandLoop, hl], hb2, ?_, ?_⟩
        · intro err2 he
          simp only [Except.error.injEq] at he
          left
          rw [← he, herr]
        · intro c hc
          simp at hc
      | ok line =>
        obtain ⟨hshrink, hberr⟩ := readControlLine_ok_shrinks b b2 line hl
        have hlt2 : b2.data.length < fuel := by omega
        simp only [readControlCommandLoop, hl]
        by_cases hlen : line.length = 0
        · simp only [hlen, if_true]
          rcases hinv with hst | ⟨hst, c, A, hc, hA⟩
          · simp only [hst, if_true]
            obtain ⟨r, b1, hr, he1, he2, he3⟩ := ih COMMAND cmd b2 hlt2 (Or.inl rfl)
            refine ⟨r, b1, hr, by rw [he1, hberr], ?_, ?_⟩
            · intro err he
              rw [← hberr]
              exact he2 err he
            · intro c hc
              obtain ⟨h1, h2⟩ := he3 c hc
              exact ⟨by omega, h2⟩
          · simp only [hst, hk, if_false]
            refine ⟨.ok cmd, b2, rfl, hberr, ?_, ?_⟩
            · intro err he
              simp at he
            · intro c2 hc2
              simp only [Except.ok.injEq] at hc2
              exact ⟨hshrink, c, A, by rw [← hc2, hc], hA⟩
        · simp only [hlen, if_false]
          rcases hinv with hst | ⟨hst, c, A, hc, hA⟩
          · simp only [hst, if_true]
            by_cases hidx : bytesIndex line [32] < 1
            · simp only [hidx, if_true]
              refine ⟨_, _, rfl, hberr, ?_, ?_⟩
              · intro err he
                simp only [Except.error.injEq] at he
                right; left
                exact he.symm
              · intro c hc
                simp at hc
            · simp only [hidx, if_false]
              obtain ⟨r, b1, hr, he1, he2, he3⟩ := ih KWARG
                (some (NewCommand (StringToAction ToUpper (line.take (bytesIndex line [32]).toNat))
                  (line.drop ((bytesIndex line [32]).toNat + 1)) true)) b2 hlt2
                (Or.inr ⟨rfl, _, _, rfl, rfl⟩)
              refine ⟨r, b1, hr, by rw [he1, hberr], ?_, ?_⟩
              · intro err he
                rw [← hberr]
                exact he2 err he
              · intro c hc
                obtain ⟨h1, h2⟩ := he3 c hc
                exact ⟨by omega, h2⟩
          · simp only [hst, hk, if_false, if_true]
            by_cases hidx : bytesIndex line [61] < 1
            · simp only [hidx, if_true]
              refine ⟨_, _, rfl, hberr, ?_, ?_⟩
              · intro err he
                simp only [Except.error.injEq] at he
                right; right
                exact he.symm
              · intro c hc
                simp at hc
            · simp only [hidx, if_false, hc]
              obtain ⟨r, b1, hr, he1, he2, he3⟩ := ih KWARG
                (some { c with Args := (c.Args.insert (line.take (bytesIndex line [61]).toNat)
                  (line.drop ((bytesIndex line [61]).toNat + 1))) }) b2 hlt2
                (Or.inr ⟨rfl, _, A, rfl, hA⟩)
              refine ⟨r, b1, hr, by rw [he1, hberr], ?_, ?_⟩
              · intro err he
                rw [← hberr]
                exact he2 err he
              · intro c hc
                obtain ⟨h1, h2⟩ := he3 c hc
                exact ⟨by omega, h2⟩

/-- The function `readControlCommand` returns on every stream, and what it
returns is as described for its loop. -/
theorem readControlCommand_returns (ToUpper : GoString → GoString) (b : Reader) :
    ∃ r b1, readControlCommand ToUpper b = some (r, b1)
      ∧ (∀ err, r = .error err → err = b.err ∨ err = Error.ErrInvalidCommandLine
          ∨ err = Error.ErrInvalidKeywordLine)
      ∧ (∀ c, r = .ok c → b1.data.length < b.data.length
          ∧ ∃ c1 A, c = some c1 ∧ c1.Action = StringToAction ToUpper A) := by
  obtain ⟨r, b1, hr, _, h2, h3⟩ := readControlCommandLoop_returns ToUpper
    (b.data.length + 1) COMMAND none b (Nat.lt_succ_self _) (Or.inl rfl)
  exact ⟨r, b1, hr, h2, h3⟩

/-- The values of `StringToAction`. -/
theorem StringToAction_range (ToUpper : GoString → GoString) (s : GoString) :
    StringToAction ToUpper s = CMD_UP ∨ StringToAction ToUpper s = CMD_DOWN
      ∨ StringToAction ToUpper s = CMD_RESTART ∨ StringToAction ToUpper s = -1 := by
  unfold StringToAction
  simp only
  split
  · exact Or.inl rfl
  · split
    · exact Or.inr (Or.inl rfl)
    · split
      · exact Or.inr (Or.inr (Or.inl rfl))
      · exact Or.inr (Or.inr (Or.inr rfl))

/-- Reading a stream that starts with blank lines: the loop is at the bytes
after them, in state COMMAND, with turns left. -/
theorem readControlCommand_blanks (ToUpper : GoString → GoString) (blanks : List Bool)
    (rest : List Byte) (e : Error) :
    ∃ fuel, readControlCommand ToUpper ⟨blankLines blanks ++ rest, e⟩
      = readControlCommandLoop ToUpper (fuel + 1) COMMAND none ⟨rest, e⟩ := by
  have h1 := blankLines_length blanks
  obtain ⟨fuel, hfuel⟩ : ∃ fuel, (blankLines blanks ++ rest).length + 1
      = (fuel + 1) + blanks.length :=
    ⟨(blankLines blanks ++ rest).length - blanks.length, by
      simp only [List.length_append]
      omega⟩
  refine ⟨fuel, ?_⟩
  unfold readControlCommand
  simp only [hfuel]
  rw [loop_blanks]

/-- C6: `readControlCommand` returns `ErrInvalidCommandLine` and no command
when the first line that is not blank holds no space or begins with a
space; it returns `ErrInvalidKeywordLine` and no command when, after blank
lines, a command line and keyword lines, a line that is not blank holds no
`=` or begins with `=`; on a stream that ends where a line of a request is
still due (at the command line, or after it before the blank line) it
returns the error of the stream.  It returns on every stream, and without
error the command is not nil.  When it returns an error the connection
handler routes nothing and writes nothing: it closes the connection. -/
theorem readControlCommand_malformed (ToUpper : GoString → GoString) :
    (∀ (blanks : List Bool) (text : List Byte) (crlf : Bool) (rest : List Byte) (e : Error),
        text ≠ [] → lineBody crlf text → (32 ∉ text ∨ text.head? = some 32) →
        readControlCommand ToUpper ⟨blankLines blanks ++ (text ++ terminator crlf ++ rest), e⟩
          = some (.error Error.ErrInvalidCommandLine, ⟨rest, e⟩))
    ∧ (∀ (blanks : List Bool) (A S : GoString) (crlf : Bool)
        (kws : List (GoString × GoString × Bool)) (text : List Byte) (crlf2 : Bool)
        (rest : List Byte) (e : Error),
        A ≠ [] → 32 ∉ A → lineBody crlf (A ++ [32] ++ S) →
        (∀ kw ∈ kws, kw.1 ≠ [] ∧ 61 ∉ kw.1 ∧ lineBody kw.2.2 (kw.1 ++ [61] ++ kw.2.1)) →
        text ≠ [] → lineBody crlf2 text → (61 ∉ text ∨ text.head? = some 61) →
        readControlCommand ToUpper
            ⟨requestHead blanks A S crlf kws ++ (text ++ terminator crlf2 ++ rest), e⟩
          = some (.error Error.ErrInvalidKeywordLine, ⟨rest, e⟩))
    ∧ (∀ (blanks : List Bool) (tail : List Byte) (e : Error), 10 ∉ tail →
        readControlCommand ToUpper ⟨blankLines blanks ++ tail, e⟩ = some (.error e, ⟨[], e⟩))
    ∧ (∀ (blanks : List Bool) (A S : GoString) (crlf : Bool)
        (kws : List (GoString × GoString × Bool)) (tail : List Byte) (e : Error),
        A ≠ [] → 32 ∉ A → lineBody crlf (A ++ [32] ++ S) →
        (∀ kw ∈ kws, kw.1 ≠ [] ∧ 61 ∉ kw.1 ∧ lineBody kw.2.2 (kw.1 ++ [61] ++ kw.2.1)) →
        10 ∉ tail →
        readControlCommand ToUpper ⟨requestHead blanks A S crlf kws ++ tail, e⟩
          = some (.error e, ⟨[], e⟩))
    ∧ (∀ b : Reader, ∃ r b1, readControlCommand ToUpper b = some (r, b1) ∧ r ≠ .ok none)
    ∧ (∀ (env : ConnEnv) (b b1 : Reader) (h : List ConnEvent) (fuel : Nat) (err : Error),
        readControlCommand ToUpper b = some (.error err, b1) →
        handleConnectionLoop ToUpper env (fuel + 1) b h
          = some (ConnEnd.closed, h ++ [ConnEvent.close])) := by
  refine ⟨?_, ?_, ?_, ?_, ?_, ?_⟩
  · intro blanks text crlf rest e hne hline hbad
    obtain ⟨fuel, hfuel⟩ := readControlCommand_blanks ToUpper blanks
      (text ++ terminator crlf ++ rest) e
    rw [hfuel, loop_bad_command_line ToUpper fuel none text crlf rest e hne hline hbad]
  · intro blanks A S crlf kws text crlf2 rest e hA hsp hline hkws hne hline2 hbad
    obtain ⟨fuel, hfuel⟩ := readControlCommand_head ToUpper blanks A S crlf kws
      (text ++ terminator crlf2 ++ rest) e hA hsp hline hkws
    rw [hfuel, loop_bad_keyword_line ToUpper fuel _ text crlf2 rest e hne hline2 hbad]
  · intro blanks tail e ht
    obtain ⟨fuel, hfuel⟩ := readControlCommand_blanks ToUpper blanks tail e
    rw [hfuel, loop_eof ToUpper fuel COMMAND none tail e ht]
  · intro blanks A S crlf kws tail e hA hsp hline hkws ht
    obtain ⟨fuel, hfuel⟩ := readControlCommand_head ToUpper blanks A S crlf kws tail e
      hA hsp hline hkws
    rw [hfuel, loop_eof ToUpper fuel KWARG _ tail e ht]
  · intro b
    obtain ⟨r, b1, hr, _, h3⟩ := readControlCommand_returns ToUpper b
    refine ⟨r, b1, hr, ?_⟩
    intro hnil
    obtain ⟨_, c1, A, hc, _⟩ := h3 none hnil
    simp at hc
  · intro env b b1 h fuel err hr
    simp [handleConnectionLoop, hr]

/-- C6 at a concrete input: after a blank line the line `start` holds no
space. -/
theorem readControlCommand_malformed_witness :
    readControlCommand asciiUpper ⟨lit "\r\nstart\nk=v\n\n", Error.os (lit "EOF")⟩
      = some (.error Error.ErrInvalidCommandLine, ⟨lit "k=v\n\n", Error.os (lit "EOF")⟩) :=
  (readControlCommand_malformed asciiUpper).1 [true] (lit "start") false (lit "k=v\n\n")
    (Error.os (lit "EOF")) (by decide) (by decide) (by decide)

/-- The loop of `handleConnection` returns when it may take one turn more
than the reader has bytes, and every command it routes, beyond those routed
before, has one of the three actions. -/
theorem handleConnectionLoop_returns (ToUpper : GoString → GoString) (env : ConnEnv) :
    ∀ (fuel : Nat) (b : Reader) (h : List ConnEvent), b.data.length < fuel →
      ∃ r, handleConnectionLoop ToUpper env fuel b h = some r
        ∧ ∀ cmd, ConnEvent.route cmd ∈ r.2 → ConnEvent.route cmd ∈ h
          ∨ cmd.Action = CMD_UP ∨ cmd.Action = CMD_DOWN ∨ cmd.Action = CMD_RESTART := by
  intro fuel
  induction fuel with
  | zero => intro b h hlt; omega
  | succ fuel ih =>
    intro b h hlt
    obtain ⟨r, b1, hr, _, h3⟩ := readControlCommand_returns ToUpper b
    cases r with
    | error err =>
      refine ⟨(ConnEnd.closed, h ++ [ConnEvent.close]), by simp [handleConnectionLoop, hr], ?_⟩
      intro cmd hmem
      simp at hmem
      exact Or.inl hmem
    | ok c =>
      obtain ⟨hshrink, c1, A, hc, hA⟩ := h3 c rfl
      subst hc
      have hlt1 : b1.data.length < fuel := by omega
      simp only [handleConnectionLoop, hr]
      by_cases hneg : c1.Action < 0
      · simp only [hneg, if_true, sendControlResponse]
        cases hw : env.writeError h
            (responseBytes env.range (NewResponse RES_ERROR (lit "Invalid Action"))) with
        | some e =>
          refine ⟨_, rfl, ?_⟩
          intro cmd hmem
          simp at hmem
          exact Or.inl hmem
        | none =>
          obtain ⟨r2, hr2, hroutes⟩ := ih b1 (h ++ [ConnEvent.write
            (responseBytes env.range (NewResponse RES_ERROR (lit "Invalid Action")))]) hlt1
          refine ⟨r2, hr2, ?_⟩
          intro cmd hmem
          rcases hroutes cmd hmem with hin | hact
          · simp at hin
            exact Or.inl hin
          · exact Or.inr hact
      · simp only [hneg, if_false]
        have hact : c1.Action = CMD_UP ∨ c1.Action = CMD_DOWN ∨ c1.Action = CMD_RESTART := by
          rcases StringToAction_range ToUpper A with h0 | h0 | h0 | h0
          · exact Or.inl (hA.trans h0)
          · exact Or.inr (Or.inl (hA.trans h0))
          · exact Or.inr (Or.inr (hA.trans h0))
          · exfalso
            apply hneg
            rw [hA, h0]
            decide
        have hold : ∀ (l : List ConnEvent) (cmd : KickitCommand),
            ConnEvent.route cmd ∈ h ++ ConnEvent.route c1 :: l →
            (∀ x ∈ l, ∀ c, x ≠ ConnEvent.route c) →
            ConnEvent.route cmd ∈ h
              ∨ cmd.Action = CMD_UP ∨ cmd.Action = CMD_DOWN ∨ cmd.Action = CMD_RESTART := by
          intro l cmd hmem hl
          simp only [List.mem_append, List.mem_cons] at hmem
          rcases hmem with hm | hm | hm
          · exact Or.inl hm
          · simp only [ConnEvent.route.injEq] at hm
            rw [hm]
            exact Or.inr hact
          · exact absurd rfl (hl _ hm cmd)
        cases hans : env.answer (h ++ [ConnEvent.route c1]) c1 with
        | none =>
          refine ⟨_, rfl, ?_⟩
          intro cmd hmem
          exact hold [] cmd hmem (by simp)
        | some res =>
          cases res with
          | none =>
            refine ⟨_, rfl, ?_⟩
            intro cmd hmem
            exact hold [ConnEvent.answered c1 none, ConnEvent.close] cmd (by simpa using hmem)
              (by simp)
          | some res =>
            simp only [sendControlResponse]
            cases hw : env.writeError (h ++ [ConnEvent.route c1]
                ++ [ConnEvent.answered c1 (some res)]) (responseBytes env.range res) with
            | some e =>
              refine ⟨_, rfl, ?_⟩
              intro cmd hmem
              exact hold [ConnEvent.answered c1 (some res),
                ConnEvent.write (responseBytes env.range res), ConnEvent.close] cmd
                (by simpa using hmem) (by simp)
            | none =>
              obtain ⟨r2, hr2, hroutes⟩ := ih b1 (h ++ [ConnEvent.route c1]
                ++ [ConnEvent.answered c1 (some res)]
                ++ [ConnEvent.write (responseBytes env.range res)]) hlt1
              refine ⟨r2, hr2, ?_⟩
              intro cmd hmem
              rcases hroutes cmd hmem with hin | hact2
              · exact hold [ConnEvent.answered c1 (some res),
                  ConnEvent.write (responseBytes env.range res)] cmd
                  (by simpa using hin) (by simp)
              · exact Or.inr hact2

/-- The bytes written for the response "Invalid Action". -/
theorem responseBytes_invalid_action (env : ConnEnv) :
    responseBytes env.range (NewResponse RES_ERROR (lit "Invalid Action"))
      = lit "ERROR Invalid Action\r\n\r\n" := by
  have hnil : env.range [] = [] := List.Perm.eq_nil (env.range_perm [])
  simp only [responseBytes, NewResponse, GoMap.empty, hnil, List.foldl_nil, if_true]
  rfl

/-- C7: `StringToAction` returns -1 exactly for the strings whose upper-cased
form is none of START, STOP, RESTART.  For a decoded command with that
action the connection handler writes the response Error "Invalid Action"
and puts nothing on the queue of the supervisor in that turn.  On every
stream the handler returns, and every command it has put on the queue has
action Up, Down or Restart. -/
theorem invalid_action_not_routed (ToUpper : GoString → GoString) :
    (∀ s, StringToAction ToUpper s = -1
        ↔ (ToUpper s ≠ lit "START" ∧ ToUpper s ≠ lit "STOP" ∧ ToUpper s ≠ lit "RESTART"))
    ∧ (∀ (env : ConnEnv) (b b1 : Reader) (h : List ConnEvent) (fuel : Nat)
        (cmd : KickitCommand),
        readControlCommand ToUpper b = some (.ok (some cmd), b1) → cmd.Action = -1 →
        handleConnectionLoop ToUpper env (fuel + 1) b h
          = match env.writeError h (lit "ERROR Invalid Action\r\n\r\n") with
            | some _ => some (ConnEnd.closed,
                h ++ [ConnEvent.write (lit "ERROR Invalid Action\r\n\r\n"), ConnEvent.close])
            | none => handleConnectionLoop ToUpper env fuel b1
                (h ++ [ConnEvent.write (lit "ERROR Invalid Action\r\n\r\n")]))
    ∧ (∀ (env : ConnEnv) (b : Reader), ∃ r, handleConnection ToUpper env b = some r
        ∧ ∀ cmd, ConnEvent.route cmd ∈ r.2 →
          cmd.Action = CMD_UP ∨ cmd.Action = CMD_DOWN ∨ cmd.Action = CMD_RESTART) := by
  refine ⟨?_, ?_, ?_⟩
  · intro s
    unfold StringToAction
    simp only
    by_cases h1 : ToUpper s = lit "START"
    · rw [if_pos h1]
      exact ⟨fun h => absurd h (by decide), fun h => absurd h1 h.1⟩
    · rw [if_neg h1]
      by_cases h2 : ToUpper s = lit "STOP"
      · rw [if_pos h2]
        exact ⟨fun h => absurd h (by decide), fun h => absurd h2 h.2.1⟩
      · rw [if_neg h2]
        by_cases h3 : ToUpper s = lit "RESTART"
        · rw [if_pos h3]
          exact ⟨fun h => absurd h (by decide), fun h => absurd h3 h.2.2⟩
        · rw [if_neg h3]
          exact ⟨fun _ => ⟨h1, h2, h3⟩, fun _ => rfl⟩
  · intro env b b1 h fuel cmd hr hact
    have hneg : cmd.Action < 0 := by
      rw [hact]
      decide
    simp only [handleConnectionLoop, hr, hneg, if_true, sendControlResponse,
      responseBytes_invalid_action]
    cases env.writeError h (lit "ERROR Invalid Action\r\n\r\n") <;> simp
  · intro env b
    obtain ⟨r, hr, hroutes⟩ := handleConnectionLoop_returns ToUpper env (b.data.length + 1) b []
      (Nat.lt_succ_self _)
    refine ⟨r, hr, ?_⟩
    intro cmd hmem
    rcases hroutes cmd hmem with hin | hact
    · simp at hin
    · exact hact

/-- C7 at a concrete input: the request `bogus x` is answered with "Invalid
Action" and not routed; the request `start y` after it is routed. -/
theorem invalid_action_not_routed_witness :
    handleConnectionLoop asciiUpper connOk (21 + 1)
        ⟨lit "bogus x\n\nstart y\n\n", Error.os (lit "EOF")⟩ []
      = (match connOk.writeError [] (lit "ERROR Invalid Action\r\n\r\n") with
        | some _ => some (ConnEnd.closed,
            [] ++ [ConnEvent.write (lit "ERROR Invalid Action\r\n\r\n"), ConnEvent.close])
        | none => handleConnectionLoop asciiUpper connOk 21
            ⟨lit "start y\n\n", Error.os (lit "EOF")⟩
            ([] ++ [ConnEvent.write (lit "ERROR Invalid Action\r\n\r\n")])) :=
  (invalid_action_not_routed asciiUpper).2.1 connOk
    ⟨lit "bogus x\n\nstart y\n\n", Error.os (lit "EOF")⟩
    ⟨lit "start y\n\n", Error.os (lit "EOF")⟩ [] 21
    ⟨-1, lit "x", GoMap.empty, true⟩ rfl rfl

/-! ### The wire protocol: responses -/

/-- The first CRLF of a text that has none before its end. -/
theorem specLine_append (l rest : List Byte) (hl : hasCRLF l = false) :
    specLine (l ++ 13 :: 10 :: rest) = some (l, rest) := by
  induction l with
  | nil => simp [specLine]
  | cons c l ih =>
    simp only [hasCRLF, Bool.or_eq_false_iff, decide_eq_false_iff_not] at hl
    obtain ⟨h1, h2⟩ := hl
    have hcond : ¬ (c = 13 ∧ (l ++ 13 :: 10 :: rest).head? = some 10) := by
      rintro ⟨hc, hh⟩
      apply h1
      refine ⟨hc, ?_⟩
      cases l with
      | nil => simp at hh
      | cons d l => simpa using hh
    show specLine (c :: (l ++ 13 :: 10 :: rest)) = some (c :: l, rest)
    rw [specLine, if_neg hcond, ih h2]

/-- Two texts without CRLF, joined by a byte that is neither CR nor LF, hold
no CRLF. -/
theorem hasCRLF_append_sep (a b : List Byte) (c : Byte) (ha : hasCRLF a = false)
    (hb : hasCRLF b = false) (hc13 : c ≠ 13) (hc10 : c ≠ 10) :
    hasCRLF (a ++ c :: b) = false := by
  induction a with
  | nil =>
    simp [hasCRLF, hc13, hb]
  | cons x a ih =>
    simp only [hasCRLF, Bool.or_eq_false_iff, decide_eq_false_iff_not] at ha
    obtain ⟨h1, h2⟩ := ha
    simp only [List.cons_append, hasCRLF, Bool.or_eq_false_iff, decide_eq_false_iff_not]
    refine ⟨?_, ih h2⟩
    rintro ⟨hx, hh⟩
    cases a with
    | nil => exact hc10 (by simpa using hh)
    | cons d a =>
      apply h1
      exact ⟨hx, by simpa using hh⟩

/-- Splitting at the first separator, when it is known where it is. -/
theorem specSplit_append (sep : Byte) (a b : List Byte) (ha : sep ∉ a) :
    specSplit sep (a ++ sep :: b) = some (a, b) := by
  induction a with
  | nil => simp [specSplit]
  | cons c a ih =>
    have hc : c ≠ sep := fun hcs => ha (by simp [hcs])
    have hp : sep ∉ a := fun hm => ha (by simp [hm])
    simp [specSplit, hc, ih hp]

/-- The loop of `sendControlResponse` appends the data lines to the buffer. -/
theorem foldl_dataLines (l : List (GoString × GoString)) (buf : List Byte) :
    l.foldl (fun buf kv => buf ++ kv.1 ++ lit "=" ++ kv.2 ++ CRLF) buf = buf ++ dataLines l := by
  induction l generalizing buf with
  | nil => simp [dataLines]
  | cons kv l ih =>
    rw [List.foldl_cons, ih, dataLines]
    simp only [List.append_assoc]

/-- The data lines of entries whose keys hold no `=` and whose keys and
values hold no CRLF are read back as the successive assignments. -/
theorem specData_dataLines (l : List (GoString × GoString)) (m : GoMap GoString) (fuel : Nat)
    (hfuel : l.length < fuel)
    (hl : ∀ kv ∈ l, hasCRLF kv.1 = false ∧ 61 ∉ kv.1 ∧ hasCRLF kv.2 = false) :
    specData fuel (dataLines l ++ CRLF) m
      = some (l.foldl (fun m kv => m.insert kv.1 kv.2) m) := by
  induction l generalizing m fuel with
  | nil =>
    cases fuel with
    | zero => simp at hfuel
    | succ fuel => simp [dataLines, CRLF, specData, specLine]
  | cons kv l ih =>
    cases fuel with
    | zero => simp at hfuel
    | succ fuel =>
      obtain ⟨hk, heq, hv⟩ := hl kv (by simp)
      have hrest : ∀ kv ∈ l, hasCRLF kv.1 = false ∧ 61 ∉ kv.1 ∧ hasCRLF kv.2 = false :=
        fun x hx => hl x (by simp [hx])
      have hline : hasCRLF (kv.1 ++ 61 :: kv.2) = false :=
        hasCRLF_append_sep kv.1 kv.2 61 hk hv (by decide) (by decide)
      have hdata : dataLines (kv :: l) ++ CRLF
          = (kv.1 ++ 61 :: kv.2) ++ 13 :: 10 :: (dataLines l ++ CRLF) := by
        simp [dataLines, CRLF, lit]
      have hne : kv.1 ++ 61 :: kv.2 ≠ [] := by simp
      have hlen : l.length < fuel := by
        simp only [List.length_cons] at hfuel
        omega
      rw [hdata]
      simp only [specData, specLine_append _ _ hline, hne, if_false,
        specSplit_append 61 kv.1 kv.2 heq, List.foldl_cons]
      exact ih _ fuel hlen hrest

/-- In a list of entries with distinct keys, the entry found for a key is
any entry with that key. -/
theorem find_entry_iff (l : List (GoString × GoString)) (hl : (l.map Prod.fst).Nodup)
    (k v : GoString) :
    (l.find? (fun e => e.1 == k)).map Prod.snd = some v ↔ (k, v) ∈ l := by
  induction l with
  | nil => simp
  | cons e l ih =>
    simp only [List.map_cons, List.nodup_cons] at hl
    obtain ⟨hnot, hnd⟩ := hl
    by_cases hek : e.1 = k
    · have hkl : ∀ w, (k, w) ∉ l := by
        intro w hw
        apply hnot
        rw [hek]
        exact List.mem_map_of_mem Prod.fst hw
      simp only [List.find?_cons, hek, beq_self_eq_true, Option.map_some', Option.some.injEq,
        List.mem_cons]
      constructor
      · intro hv
        left
        rw [← hv, ← hek]
      · rintro (h | h)
        · rw [← h]
        · exact absurd h (hkl v)
    · have hne : (e.1 == k) = false := by simpa using hek
      have hne2 : ¬ ((k, v) = e) := by
        intro h
        apply hek
        rw [← h]
      simp only [List.find?_cons, hne, List.mem_cons, hne2, false_or]
      exact ih hnd

/-- The map read back from the data lines finds for every key what the map
that was written finds, whatever the order in which its entries were
visited. -/
theorem lookup_foldl_perm (entries visited : List (GoString × GoString))
    (hperm : visited.Perm entries) (hnd : (entries.map Prod.fst).Nodup) (k : GoString) :
    (visited.foldl (fun m kv => m.insert kv.1 kv.2) GoMap.empty).lookup k
      = GoMap.lookup ⟨entries⟩ k := by
  have hl := GoMap.lookup_foldl_insert (fun kv : GoString × GoString => kv.1)
    (fun kv : GoString × GoString => kv.2) visited GoMap.empty k
  rw [hl]
  have hrev : (visited.reverse.map Prod.fst).Nodup := by
    rw [List.map_reverse, List.nodup_reverse]
    exact (List.Perm.nodup_iff (List.Perm.map Prod.fst hperm)).mpr hnd
  simp only [GoMap.lookup, GoMap.empty, List.find?_nil, Option.map_none', Option.or_none]
  apply Option.ext
  intro v
  simp only [Option.mem_def]
  have h1 := find_entry_iff visited.reverse hrev k v
  have h2 := find_entry_iff entries hnd k v
  have hfun : (fun kv : GoString × GoString => kv.2) = Prod.snd := rfl
  rw [hfun, h1, h2, List.mem_reverse]
  exact List.Perm.mem_iff hperm

/-- C4 fails as stated, at three concrete responses.  A message that holds a
CRLF is read back cut at the CRLF, what follows it being taken for a data
line; a data key that holds `=` is read back cut at the `=`; and for a
status that is neither Success nor Error no status word is written, so that
nothing is read back. -/
theorem response_round_trip_fails :
    specDecodeResponse (responseBytes (fun l => l) ⟨RES_ERROR, lit "x\r\nk=v", GoMap.empty⟩)
        = some ⟨RES_ERROR, lit "x", ⟨[(lit "k", lit "v")]⟩⟩
      ∧ specDecodeResponse
          (responseBytes (fun l => l) ⟨RES_SUCCESS, lit "ok", ⟨[(lit "a=b", lit "c")]⟩⟩)
        = some ⟨RES_SUCCESS, lit "ok", ⟨[(lit "a", lit "b=c")]⟩⟩
      ∧ specDecodeResponse (responseBytes (fun l => l) ⟨2, lit "ok", GoMap.empty⟩) = none := by
  refine ⟨?_, ?_, ?_⟩ <;> rfl

/-- C4 (amended): for every response whose status is Success or Error, whose
message holds no CRLF, and whose data keys and values hold no CRLF, the keys
holding no `=` either, the bytes written by `sendControlResponse`, read
back by the response grammar of the spec, give the same status, the same
message and a data map that finds the same value for every key, whatever
the order in which the entries of the map were written. -/
theorem response_round_trip
    (range : List (GoString × GoString) → List (GoString × GoString))
    (res : KickitResponse)
    (hrange : ∀ entries, (range entries).Perm entries)
    (hst : res.Status = RES_SUCCESS ∨ res.Status = RES_ERROR)
    (hwf : res.Data.WF)
    (hmsg : hasCRLF res.Message = false)
    (hdata : ∀ kv ∈ res.Data.entries,
      hasCRLF kv.1 = false ∧ 61 ∉ kv.1 ∧ hasCRLF kv.2 = false) :
    ∃ dec, specDecodeResponse (responseBytes range res) = some dec
      ∧ dec.Status = res.Status ∧ dec.Message = res.Message
      ∧ ∀ k, dec.Data.lookup k = res.Data.lookup k := by
  have hperm := hrange res.Data.entries
  have hvis : ∀ kv ∈ range res.Data.entries,
      hasCRLF kv.1 = false ∧ 61 ∉ kv.1 ∧ hasCRLF kv.2 = false :=
    fun kv hkv => hdata kv ((List.Perm.mem_iff hperm).mp hkv)
  have hbytes : ∀ word : List Byte,
      (word ++ lit " " ++ res.Message ++ CRLF
          ++ dataLines (range res.Data.entries) ++ CRLF)
        = (word ++ 32 :: res.Message) ++ 13 :: 10
          :: (dataLines (range res.Data.entries) ++ CRLF) := by
    intro word
    simp [CRLF, lit]
  have hfuel : (range res.Data.entries).length
      < (dataLines (range res.Data.entries) ++ CRLF).length + 1 := by
    have hlen : ∀ l : List (GoString × GoString), l.length ≤ (dataLines l).length := by
      intro l
      induction l with
      | nil => simp
      | cons kv l ih =>
        simp only [dataLines, List.length_cons, List.length_append, CRLF]
        omega
    have := hlen (range res.Data.entries)
    simp only [List.length_append]
    omega
  have hdec : ∀ (word : List Byte) (status : Int), hasCRLF word = false → 32 ∉ word →
      specStatus word = some status →
      specDecodeResponse (word ++ lit " " ++ res.Message ++ CRLF
          ++ dataLines (range res.Data.entries) ++ CRLF)
        = some ⟨status, res.Message,
            (range res.Data.entries).foldl (fun m kv => m.insert kv.1 kv.2) GoMap.empty⟩ := by
    intro word status hw hsp hstat
    have hline : hasCRLF (word ++ 32 :: res.Message) = false :=
      hasCRLF_append_sep word res.Message 32 hw hmsg (by decide) (by decide)
    rw [hbytes word]
    simp only [specDecodeResponse, specLine_append _ _ hline,
      specSplit_append 32 word res.Message hsp, hstat,
      specData_dataLines _ GoMap.empty _ hfuel hvis]
  have hlook : ∀ k,
      ((range res.Data.entries).foldl (fun m kv => m.insert kv.1 kv.2) GoMap.empty).lookup k
        = res.Data.lookup k :=
    fun k => lookup_foldl_perm res.Data.entries (range res.Data.entries) hperm hwf k
  have hne : ¬ (RES_SUCCESS = RES_ERROR) := by decide
  rcases hst with hs | hs
  · refine ⟨⟨RES_SUCCESS, res.Message,
      (range res.Data.entries).foldl (fun m kv => m.insert kv.1 kv.2) GoMap.empty⟩,
      ?_, hs.symm, rfl, hlook⟩
    have hb : responseBytes range res = lit "SUCCESS" ++ lit " " ++ res.Message ++ CRLF
        ++ dataLines (range res.Data.entries) ++ CRLF := by
      simp only [responseBytes, hs, hne, if_false, if_true, foldl_dataLines, List.nil_append]
    rw [hb]
    exact hdec (lit "SUCCESS") RES_SUCCESS (by decide) (by decide) (by decide)
  · refine ⟨⟨RES_ERROR, res.Message,
      (range res.Data.entries).foldl (fun m kv => m.insert kv.1 kv.2) GoMap.empty⟩,
      ?_, hs.symm, rfl, hlook⟩
    have hb : responseBytes range res = lit "ERROR" ++ lit " " ++ res.Message ++ CRLF
        ++ dataLines (range res.Data.entries) ++ CRLF := by
      simp only [responseBytes, hs, if_true, foldl_dataLines, List.nil_append]
    rw [hb]
    exact hdec (lit "ERROR") RES_ERROR (by decide) (by decide) (by decide)

/-- C4 (amended) at a concrete input: the response of a successful STOP, its
two data entries written in the other order. -/
theorem response_round_trip_witness :
    ∃ dec, specDecodeResponse (responseBytes List.reverse
        ⟨RES_SUCCESS, lit "Service stopped",
          ⟨[(lit "msg", lit "exit status 0"), (lit "pid", lit "4321")]⟩⟩) = some dec
      ∧ dec.Status = RES_SUCCESS ∧ dec.Message = lit "Service stopped"
      ∧ ∀ k, dec.Data.lookup k
          = GoMap.lookup ⟨[(lit "msg", lit "exit status 0"), (lit "pid", lit "4321")]⟩ k :=
  response_round_trip List.reverse
    ⟨RES_SUCCESS, lit "Service stopped",
      ⟨[(lit "msg", lit "exit status 0"), (lit "pid", lit "4321")]⟩⟩
    (fun entries => List.reverse_perm entries) (Or.inl rfl) (by decide) (by decide)
    (by decide)

/-! ### Unexpected exit -/

/-- An integer that fits `int64` is its own value in `int64`. -/
theorem wrapInt64_of_fits (x : Int) (hlo : -2 ^ 63 ≤ x) (hhi : x < 2 ^ 63) :
    wrapInt64 x = x := by
  unfold wrapInt64
  have h0 : 0 ≤ x + 2 ^ 63 := by omega
  have h1 : x + 2 ^ 63 < 2 ^ 64 := by omega
  rw [Int.emod_eq_of_lt h0 h1]
  omega

/-- The difference of two times, each a number of nanoseconds that fits
`int64` and is not negative, is the same in `int64` as in the integers. -/
theorem lifespan_no_wrap (now startedAt : Int) (h0 : 0 ≤ startedAt) (h1 : startedAt < 2 ^ 63)
    (h2 : 0 ≤ now) (h3 : now < 2 ^ 63) : wrapInt64 (now - startedAt) = now - startedAt :=
  wrapInt64_of_fits (now - startedAt) (by omega) (by omega)

/-- The effects before the first occurrence of an effect are fixed by the
whole sequence. -/
theorem first_split_unique (x : Event) (a c b d : List Event) (ha : x ∉ a) (hc : x ∉ c)
    (h : a ++ x :: b = c ++ x :: d) : a = c := by
  induction a generalizing c with
  | nil =>
    cases c with
    | nil => rfl
    | cons z c =>
      simp only [List.nil_append, List.cons_append, List.cons.injEq] at h
      exact absurd h.1 (fun hxz => hc (by simp [hxz]))
  | cons y a ih =>
    cases c with
    | nil =>
      simp only [List.nil_append, List.cons_append, List.cons.injEq] at h
      exact absurd h.1.symm (fun hxy => ha (by simp [hxy]))
    | cons z c =>
      simp only [List.cons_append, List.cons.injEq] at h
      have ha2 : x ∉ a := fun hm => ha (by simp [hm])
      have hc2 : x ∉ c := fun hm => hc (by simp [hm])
      rw [h.1, ih c ha2 hc2 h.2]

/-- The effects of `getFds` come after those performed before, and none of
them is a pause. -/
theorem getFds_trace (env : Env) (kp : KickitProcess) (h : List Event) :
    ∃ g, (kp.getFds env h).2 = h ++ g ∧ ∀ ns, Event.sleep ns ∉ g := by
  unfold KickitProcess.getFds
  simp only
  split
  · exact ⟨[Event.mkdirAll (env.pathJoin kp.runDir (LOGDIR env)) 0o755], rfl, by simp⟩
  · split
    · exact ⟨[Event.mkdirAll (env.pathJoin kp.runDir (LOGDIR env)) 0o755,
        Event.openFile (env.pathJoin (env.pathJoin kp.runDir (LOGDIR env)) LOGFILE)
          [OpenFlag.O_CREAT, OpenFlag.O_APPEND, OpenFlag.O_WRONLY] 0o755],
        by simp, by simp⟩
    · split
      · exact ⟨[Event.mkdirAll (env.pathJoin kp.runDir (LOGDIR env)) 0o755,
          Event.openFile (env.pathJoin (env.pathJoin kp.runDir (LOGDIR env)) LOGFILE)
            [OpenFlag.O_CREAT, OpenFlag.O_APPEND, OpenFlag.O_WRONLY] 0o755,
          Event.openFile DevNull [OpenFlag.O_RDWR] 0], by simp, by simp⟩
      · exact ⟨[Event.mkdirAll (env.pathJoin kp.runDir (LOGDIR env)) 0o755,
          Event.openFile (env.pathJoin (env.pathJoin kp.runDir (LOGDIR env)) LOGFILE)
            [OpenFlag.O_CREAT, OpenFlag.O_APPEND, OpenFlag.O_WRONLY] 0o755,
          Event.openFile DevNull [OpenFlag.O_RDWR] 0], by simp, by simp⟩

/-- The effects of `start` on an actor that tracks no process come after those
performed before; the first is the check of the run directory, and none is a
pause. -/
theorem start_trace (env : Env) (kp : KickitProcess) (h : List Event)
    (hp : kp.process = none) :
    ∃ g, (kp.start env h).2.2 = h ++ Event.isDirectory kp.runDir :: g
      ∧ ∀ ns, Event.sleep ns ∉ g := by
  unfold KickitProcess.start
  simp only [hp]
  split
  · exact ⟨[Event.deadSend kp.name], by simp [KickitProcess.remove], by simp⟩
  · obtain ⟨gf, hg, hns⟩ := getFds_trace env { kp with wantDown := false }
      (h ++ [Event.isDirectory kp.runDir])
    simp only [hp] at hg
    split
    · rename_i err h1 hfd
      rw [hfd] at hg
      simp only at hg
      refine ⟨gf ++ [Event.deadSend kp.name], by simp [KickitProcess.remove, hg], ?_⟩
      intro ns hmem
      simp only [List.mem_append, List.mem_singleton] at hmem
      rcases hmem with hm | hm
      · exact hns ns hm
      · simp at hm
    · rename_i fds h1 hfd
      rw [hfd] at hg
      simp only at hg
      split
      · refine ⟨gf ++ [Event.startProcess kp.runPath [kp.runPath] kp.runDir fds,
          Event.deadSend kp.name], by simp [KickitProcess.remove, hg], ?_⟩
        intro ns hmem
        simp only [List.mem_append, List.mem_cons, List.mem_singleton] at hmem
        rcases hmem with hm | hm
        · exact hns ns hm
        · simp at hm
      · rename_i proc hsp
        refine ⟨gf ++ [Event.startProcess kp.runPath [kp.runPath] kp.runDir fds,
          Event.nanoseconds, Event.goWait proc.Pid], by simp [hg], ?_⟩
        intro ns hmem
        simp only [List.mem_append, List.mem_cons, List.mem_singleton] at hmem
        rcases hmem with hm | hm
        · exact hns ns hm
        · simp at hm

/-- The first half of `uponDeath`, case by case. -/
theorem uponDeathPause_eq (env : Env) (kp : KickitProcess) (h : List Event) :
    kp.uponDeathPause env h
      = ({ kp with process := none },
          if wrapInt64 (env.Nanoseconds h - kp.startedAt) < TOOYOUNGTODIE
          then h ++ [Event.nanoseconds, Event.sleep DEATHPAUSE]
          else h ++ [Event.nanoseconds]) := by
  unfold KickitProcess.uponDeathPause
  simp only
  split <;> simp

/-- The function `uponDeath` is its first half followed by `start`. -/
theorem uponDeath_eq (env : Env) (kp : KickitProcess) (h : List Event) :
    kp.uponDeath env h
      = (KickitProcess.start env { kp with process := none } (kp.uponDeathPause env h).2).2 := by
  unfold KickitProcess.uponDeath
  rw [uponDeathPause_eq]

/-- C11: for every actor state and every time shown by the clock, `uponDeath`
clears the tracked handle, reads the clock, pauses for `DEATHPAUSE`
(5 000 000 000 ns) when the observed lifespan, the time read minus
`startedAt` as computed in `int64`, is strictly below `TOOYOUNGTODIE`
(5 000 000 000 ns) and does not pause otherwise.  When the difference fits
`int64`, as it does for all times that are not negative, the observed
lifespan is the time read minus `startedAt`.  After that `uponDeath` runs
`start`, whose first effect, the check of the run directory, comes after the
pause and which pauses no more; the wants-down flag has no part in it and is
clear afterwards.  So for a process that died young, whatever is done
between the reading of the clock and the first effect of the relaunch pauses
the actor for `DEATHPAUSE` at least. -/
theorem uponDeath_backoff (env : Env) (kp : KickitProcess) (h : List Event) :
    (kp.uponDeathPause env h).1 = { kp with process := none }
    ∧ (wrapInt64 (env.Nanoseconds h - kp.startedAt) < TOOYOUNGTODIE →
        (kp.uponDeathPause env h).2 = h ++ [Event.nanoseconds, Event.sleep DEATHPAUSE])
    ∧ (¬ wrapInt64 (env.Nanoseconds h - kp.startedAt) < TOOYOUNGTODIE →
        (kp.uponDeathPause env h).2 = h ++ [Event.nanoseconds])
    ∧ (-2 ^ 63 ≤ env.Nanoseconds h - kp.startedAt →
        env.Nanoseconds h - kp.startedAt < 2 ^ 63 →
        (env.Nanoseconds h - kp.startedAt < TOOYOUNGTODIE →
          (kp.uponDeathPause env h).2 = h ++ [Event.nanoseconds, Event.sleep DEATHPAUSE])
        ∧ (¬ env.Nanoseconds h - kp.startedAt < TOOYOUNGTODIE →
          (kp.uponDeathPause env h).2 = h ++ [Event.nanoseconds]))
    ∧ (0 ≤ kp.startedAt → kp.startedAt < 2 ^ 63 →
        0 ≤ env.Nanoseconds h → env.Nanoseconds h < 2 ^ 63 →
        wrapInt64 (env.Nanoseconds h - kp.startedAt) = env.Nanoseconds h - kp.startedAt)
    ∧ kp.uponDeath env h
        = (KickitProcess.start env { kp with process := none } (kp.uponDeathPause env h).2).2
    ∧ (∃ g, (kp.uponDeath env h).2
          = (kp.uponDeathPause env h).2 ++ Event.isDirectory kp.runDir :: g
        ∧ ∀ ns, Event.sleep ns ∉ g)
    ∧ (∀ b, KickitProcess.uponDeath env { kp with wantDown := b } h = kp.uponDeath env h)
    ∧ (kp.uponDeath env h).1.wantDown = false
    ∧ DEATHPAUSE = 5000000000 ∧ TOOYOUNGTODIE = 5000000000
    ∧ (wrapInt64 (env.Nanoseconds h - kp.startedAt) < TOOYOUNGTODIE →
        (∃ g, (kp.uponDeath env h).2
            = h ++ Event.nanoseconds
              :: ([Event.sleep DEATHPAUSE] ++ Event.isDirectory kp.runDir :: g)
          ∧ pausedFor g = 0)
        ∧ ∀ pre post, (kp.uponDeath env h).2
            = h ++ Event.nanoseconds :: (pre ++ Event.isDirectory kp.runDir :: post) →
          Event.isDirectory kp.runDir ∉ pre → DEATHPAUSE ≤ pausedFor pre)
    ∧ (¬ wrapInt64 (env.Nanoseconds h - kp.startedAt) < TOOYOUNGTODIE →
        ∃ g, (kp.uponDeath env h).2
            = h ++ Event.nanoseconds :: Event.isDirectory kp.runDir :: g
          ∧ pausedFor g = 0) := by
  have hpaused : ∀ g : List Event, (∀ ns, Event.sleep ns ∉ g) → pausedFor g = 0 := by
    intro g
    induction g with
    | nil => intro _; rfl
    | cons e g ih =>
      intro hg
      have hrest : ∀ ns, Event.sleep ns ∉ g := fun ns hm => hg ns (by simp [hm])
      cases e with
      | sleep ns => exact absurd (List.mem_cons_self _ _) (hg ns)
      | _ => simpa [pausedFor] using ih hrest
  have hstart : ∃ g, (kp.uponDeath env h).2
      = (kp.uponDeathPause env h).2 ++ Event.isDirectory kp.runDir :: g
      ∧ ∀ ns, Event.sleep ns ∉ g := by
    rw [uponDeath_eq]
    exact start_trace env { kp with process := none } (kp.uponDeathPause env h).2 rfl
  have hyoung : wrapInt64 (env.Nanoseconds h - kp.startedAt) < TOOYOUNGTODIE →
      (kp.uponDeathPause env h).2 = h ++ [Event.nanoseconds, Event.sleep DEATHPAUSE] := by
    intro hy
    rw [uponDeathPause_eq]
    simp [hy]
  have hold : ¬ wrapInt64 (env.Nanoseconds h - kp.startedAt) < TOOYOUNGTODIE →
      (kp.uponDeathPause env h).2 = h ++ [Event.nanoseconds] := by
    intro hy
    rw [uponDeathPause_eq]
    simp [hy]
  refine ⟨by rw [uponDeathPause_eq], hyoung, hold, ?_, ?_, uponDeath_eq env kp h, hstart, ?_, ?_,
    rfl, rfl, ?_, ?_⟩
  · intro hlo hhi
    have hw := wrapInt64_of_fits (env.Nanoseconds h - kp.startedAt) hlo hhi
    rw [hw] at hyoung hold
    exact ⟨hyoung, hold⟩
  · intro h0 h1 h2 h3
    exact lifespan_no_wrap (env.Nanoseconds h) kp.startedAt h0 h1 h2 h3
  · intro b
    rw [uponDeath_eq, uponDeath_eq, uponDeathPause_eq, uponDeathPause_eq]
    exact congrArg Prod.snd (start_wantDown_irrelevant env { kp with process := none } _ b)
  · rw [uponDeath_eq]
    exact start_wantDown env _ _
  · intro hy
    obtain ⟨g, hg, hns⟩ := hstart
    have htrace : (kp.uponDeath env h).2
        = h ++ Event.nanoseconds
          :: ([Event.sleep DEATHPAUSE] ++ Event.isDirectory kp.runDir :: g) := by
      rw [hg, hyoung hy]
      simp
    refine ⟨⟨g, htrace, hpaused g hns⟩, ?_⟩
    intro pre post hsplit hpre
    rw [htrace] at hsplit
    have heq : [Event.sleep DEATHPAUSE] ++ Event.isDirectory kp.runDir :: g
        = pre ++ Event.isDirectory kp.runDir :: post := by
      have := List.append_cancel_left hsplit
      simpa using this
    have hpre2 : pre = [Event.sleep DEATHPAUSE] :=
      (first_split_unique (Event.isDirectory kp.runDir) [Event.sleep DEATHPAUSE] pre g post
        (by simp) hpre heq).symm
    rw [hpre2]
    simp [pausedFor]
  · intro hy
    obtain ⟨g, hg, hns⟩ := hstart
    refine ⟨g, ?_, hpaused g hns⟩
    rw [hg, hold hy]
    simp

/-- C11 at three concrete inputs: the process of `web`, started at time 500,
is found dead at time 1000, and the actor pauses before it starts it again;
found dead after nine seconds, it is started again without pause; and for a
start time that is the least `int64` the difference with a time of the year
2026 wraps around below the threshold, and the actor pauses. -/
theorem uponDeath_backoff_witness :
    webYoung.uponDeath envUp [Event.recvWait ⟨4321, 0⟩]
        = ({ webYoung with startedAt := 8000 },
            [Event.recvWait ⟨4321, 0⟩, Event.nanoseconds, Event.sleep DEATHPAUSE,
              Event.isDirectory (lit "/srv/web"),
              Event.mkdirAll (lit "/srv/web/log/main") 0o755,
              Event.openFile (lit "/srv/web/log/main/current")
                [OpenFlag.O_CREAT, OpenFlag.O_APPEND, OpenFlag.O_WRONLY] 0o755,
              Event.openFile (lit "/dev/null") [OpenFlag.O_RDWR] 0,
              Event.startProcess (lit "/srv/web/run") [lit "/srv/web/run"] (lit "/srv/web")
                [⟨3⟩, ⟨4⟩, ⟨2⟩],
              Event.nanoseconds, Event.goWait 4321])
      ∧ webYoung.uponDeath envLate [Event.recvWait ⟨4321, 0⟩]
        = ({ webYoung with startedAt := 9000007000 },
            [Event.recvWait ⟨4321, 0⟩, Event.nanoseconds,
              Event.isDirectory (lit "/srv/web"),
              Event.mkdirAll (lit "/srv/web/log/main") 0o755,
              Event.openFile (lit "/srv/web/log/main/current")
                [OpenFlag.O_CREAT, OpenFlag.O_APPEND, OpenFlag.O_WRONLY] 0o755,
              Event.openFile (lit "/dev/null") [OpenFlag.O_RDWR] 0,
              Event.startProcess (lit "/srv/web/run") [lit "/srv/web/run"] (lit "/srv/web")
                [⟨3⟩, ⟨4⟩, ⟨2⟩],
              Event.nanoseconds, Event.goWait 4321])
      ∧ (webOldest.uponDeathPause envNow []).2 = [Event.nanoseconds, Event.sleep DEATHPAUSE] :=
  ⟨(uponDeath_backoff envUp webYoung [Event.recvWait ⟨4321, 0⟩]).2.2.2.2.2.1,
    (uponDeath_backoff envLate webYoung [Event.recvWait ⟨4321, 0⟩]).2.2.2.2.2.1,
    (uponDeath_backoff envNow webOldest []).2.1 (by decide)⟩

end KickitGo
